import Mathlib

/-!
# Student registration demo: profile cards, registration form, math utilities

A shallow embedding of `src/day4/profileUtils.js`, `src/script.js`,
`src/day4/mathUtils.js` and `src/day4/main.js`, followed by the properties
proved about them.

Modelling conventions.
* A JavaScript value is a `JSVal`.  A finite number is the rational it
  denotes, and `NaN`, `+Infinity`, `-Infinity` are separate values; there is no
  negative zero.  `roundDouble` rounds an exact value to the nearest double.
* A JavaScript string value is a Lean `String` (a sequence of characters);
  `utf16` gives its UTF-16 code units, which is what `charAt` indexes.
* A loop that may not terminate takes a bound on its iterations and returns
  `none` when the bound is reached.
* A thrown `Error(msg)` is `Except.error msg`.
* Reads of the environment (`Date.now()`, the form's default values) are
  parameters of the function that reads them.
-/

namespace StudentRegistration

/-! ## JavaScript values -/

/-- A JavaScript number: a finite value, `NaN`, or one of the two infinities. -/
inductive JSNum where
  | fin (q : ℚ)
  | nan
  | posInf
  | negInf
  deriving DecidableEq

/-- The result of JavaScript's `typeof`. -/
inductive JSType where
  | undefined
  | object
  | boolean
  | number
  | bigint
  | string
  | symbol
  | function
  deriving DecidableEq, Repr

/-- A JavaScript value.  An object is its list of own properties; a function
and a symbol are identified by a tag. -/
inductive JSVal where
  | undefined
  | null
  | bool (b : Bool)
  | num (n : JSNum)
  | bigint (n : Int)
  | str (s : String)
  | symbol (tag : Nat)
  | func (tag : Nat)
  | arr (items : List JSVal)
  | obj (fields : List (String × JSVal))

/-- The operator `typeof v`. -/
def typeOf : JSVal → JSType
  | .undefined => .undefined
  | .null => .object
  | .bool _ => .boolean
  | .num _ => .number
  | .bigint _ => .bigint
  | .str _ => .string
  | .symbol _ => .symbol
  | .func _ => .function
  | .arr _ => .object
  | .obj _ => .object

/-- Truthiness of a number: everything except `0` and `NaN`. -/
def JSNum.truthy : JSNum → Bool
  | .fin q => decide (q ≠ 0)
  | .nan => false
  | .posInf => true
  | .negInf => true

/-- JavaScript `ToBoolean`: the value as seen by `!v`, `v || w`, `v && w`, `v ? a : b`. -/
def toBoolean : JSVal → Bool
  | .undefined => false
  | .null => false
  | .bool b => b
  | .num n => n.truthy
  | .bigint n => decide (n ≠ 0)
  | .str s => decide (s.length ≠ 0)
  | .symbol _ => true
  | .func _ => true
  | .arr _ => true
  | .obj _ => true

/-- The test `Array.isArray(v)`. -/
def isArray : JSVal → Bool
  | .arr _ => true
  | _ => false

/-- Reading the property `key` of a value, as the destructuring
`const { name, role, ... } = profileData` does: an object yields the stored
value, and a missing property (or a value with no such property) yields
`undefined`. -/
def getProp (v : JSVal) (key : String) : JSVal :=
  match v with
  | .obj fields => (fields.lookup key).getD .undefined
  | _ => .undefined

/-! ## Strings -/

/-- The characters `String.prototype.trim` strips: ECMAScript WhiteSpace and
LineTerminator code points. -/
def isJSWhiteSpace (c : Char) : Bool :=
  let n := c.toNat
  n == 0x09 || n == 0x0A || n == 0x0B || n == 0x0C || n == 0x0D || n == 0x20 ||
  n == 0xA0 || n == 0x1680 || (0x2000 ≤ n && n ≤ 0x200A) || n == 0x2028 ||
  n == 0x2029 || n == 0x202F || n == 0x205F || n == 0x3000 || n == 0xFEFF

/-- The method `s.trim()`: strip white space from both ends. -/
def jsTrim (s : String) : String :=
  ⟨((s.data.dropWhile isJSWhiteSpace).reverse.dropWhile isJSWhiteSpace).reverse⟩

/-- The expression `v.trim().length` for a string `v`; it is only evaluated behind a
`typeof v === 'string'` test. -/
def trimLength : JSVal → Nat
  | .str s => (jsTrim s).length
  | _ => 0

/-- The expression `v.trim()` for a string `v`; it is only evaluated behind a
`typeof v === 'string'` test. -/
def trimOf : JSVal → String
  | .str s => jsTrim s
  | _ => ""

/-! ## profileUtils.js: validateProfileData -/

/-- The record returned by `validateProfileData`.  `name` and `role` are the
results of `String.prototype.trim`, and `skills` has passed the
`typeof skill === 'string'` filter, so these are typed as strings. -/
structure Profile where
  name : String
  role : String
  id : JSVal
  avatar : JSVal
  email : JSVal
  department : JSVal
  skills : List String

/-- The expression `a || b`. -/
def jsOr (a b : JSVal) : JSVal := if toBoolean a then a else b

/-- The expression `v && typeof v === 'string' ? v.trim() : null`. -/
def trimmedOrNull (v : JSVal) : JSVal :=
  if toBoolean v && typeOf v == .string then .str (trimOf v) else .null

/-- The call `skills.filter(skill => typeof skill === 'string' && skill.trim().length > 0)`. -/
def filterSkills (skills : List JSVal) : List String :=
  skills.filterMap fun skill =>
    match skill with
    | .str s => if (jsTrim s).length > 0 then some s else none
    | _ => none

/-- The expression `Array.isArray(skills) ? skills.filter(...) : []`. -/
def normalizeSkills : JSVal → List String
  | .arr items => filterSkills items
  | _ => []

/-- The function `validateProfileData(profileData)`; `now` is the value `Date.now()` returns. -/
def validateProfileData (now : Int) (profileData : JSVal) : Except String Profile :=
  if !toBoolean profileData || typeOf profileData != .object then
    .error "Profile data must be an object"
  else
    let name := getProp profileData "name"
    let role := getProp profileData "role"
    let id := getProp profileData "id"
    let avatar := getProp profileData "avatar"
    let email := getProp profileData "email"
    let department := getProp profileData "department"
    let skills := getProp profileData "skills"
    if !toBoolean name || typeOf name != .string || trimLength name == 0 then
      .error "Name is required and must be a non-empty string"
    else if !toBoolean role || typeOf role != .string || trimLength role == 0 then
      .error "Role is required and must be a non-empty string"
    else
      .ok {
        name := trimOf name
        role := trimOf role
        id := jsOr id (.num (.fin now))
        avatar := jsOr avatar .null
        email := trimmedOrNull email
        department := trimmedOrNull department
        skills := normalizeSkills skills }

/-! ## profileUtils.js: generateInitials -/

/-- The UTF-16 code units of a character: one unit below `U+10000`, a
surrogate pair from there on. -/
def utf16Units (c : Char) : List Nat :=
  if c.toNat < 0x10000 then [c.toNat]
  else [0xD800 + (c.toNat - 0x10000) / 0x400, 0xDC00 + (c.toNat - 0x10000) % 0x400]

/-- The UTF-16 code units of a string, the sequence a JavaScript string is. -/
def utf16 (s : String) : List Nat :=
  (s.data.map utf16Units).flatten

/-- The method `s.charAt(i)`: the one code unit at position `i` as a string, or
the empty string. -/
def charAt (s : String) (i : Nat) : List Nat :=
  ((utf16 s).drop i).take 1

/-- The method `s.split(sep)` for a one-character separator: the pieces between
consecutive occurrences of `sep` (always at least one piece). -/
def splitOnChar (sep : Char) : List Char → List (List Char)
  | [] => [[]]
  | c :: cs =>
    if c == sep then [] :: splitOnChar sep cs
    else
      match splitOnChar sep cs with
      | [] => [[c]]
      | w :: ws => (c :: w) :: ws

/-- The expression `name.trim().split(' ').filter(word => word.length > 0)`. -/
def nameWords (name : String) : List String :=
  ((splitOnChar ' ' (jsTrim name).data).map String.mk).filter fun word => decide (word.length > 0)

/-- The function `generateInitials(name)`; the result is given by its UTF-16
code units, and `toUpperCase` is the built-in `String.prototype.toUpperCase`
on code units. -/
def generateInitials (toUpperCase : List Nat → List Nat) (name : JSVal) : List Nat :=
  if !toBoolean name || typeOf name != .string then utf16 "??"
  else
    match name with
    | .str s =>
      let words := nameWords s
      if words.length = 0 then utf16 "??"
      else if words.length = 1 then toUpperCase (charAt (words.getD 0 "") 0)
      else toUpperCase (charAt (words.getD 0 "") 0 ++ charAt (words.getD (words.length - 1) "") 0)
    | _ => utf16 "??"

/-- The restriction of `toUpperCase` to the code units of ASCII letters, on
which it agrees with the built-in; used to evaluate `generateInitials` on
ASCII names. -/
def asciiUpper (units : List Nat) : List Nat :=
  units.map fun u => if 0x61 ≤ u ∧ u ≤ 0x7A then u - 0x20 else u

/-! ## profileUtils.js: the skills block of createProfileCard -/

/-- The method `xs.slice(start, stop)` for non-negative indices. -/
def jsSlice {α : Type} (xs : List α) (start stop : Nat) : List α :=
  (xs.take stop).drop start

/-- The template applied to one skill. -/
def skillBadge (skill : String) : String :=
  "<span class=\"skill-badge\">" ++ skill ++ "</span>"

/-- The local `skillsBadges` of `createProfileCard`, computed from the
validated `skills`. -/
def skillsBadges (skills : List String) : String :=
  if skills.length > 0 then
    "<div class=\"profile-skills\">\n            " ++
      String.join ((jsSlice skills 0 3).map skillBadge) ++
      "\n            " ++
      (if skills.length > 3 then
        "<span class=\"skill-more\">+" ++ toString (skills.length - 3) ++ "</span>"
       else "") ++
      "\n        </div>"
  else ""

/-- The skills block that `createProfileCard(profileData)` splices into the
card body: validation runs first (and its error propagates), then the
`skillsBadges` template is filled from the validated record. -/
def createProfileCardSkills (now : Int) (profileData : JSVal) : Except String String :=
  match validateProfileData now profileData with
  | .error e => .error e
  | .ok validatedData => .ok (skillsBadges validatedData.skills)

/-! ## script.js: the registration form -/

/-- A regular expression over characters; `cls p` is a character class. -/
inductive Regex where
  | nothing
  | eps
  | cls (p : Char → Bool)
  | alt (r s : Regex)
  | seq (r s : Regex)
  | star (r : Regex)

namespace Regex

/-- One or more repetitions, `r+`. -/
def plus (r : Regex) : Regex := seq r (star r)

/-- An optional occurrence, `r?`. -/
def opt (r : Regex) : Regex := alt eps r

/-- Whether `r` accepts the empty string. -/
def nullable : Regex → Bool
  | nothing => false
  | eps => true
  | cls _ => false
  | alt r s => r.nullable || s.nullable
  | seq r s => r.nullable && s.nullable
  | star _ => true

/-- The derivative of `r` by the character `c`. -/
def deriv : Regex → Char → Regex
  | nothing, _ => nothing
  | eps, _ => nothing
  | cls p, c => if p c then eps else nothing
  | alt r s, c => alt (r.deriv c) (s.deriv c)
  | seq r s, c => if r.nullable then alt (seq (r.deriv c) s) (s.deriv c) else seq (r.deriv c) s
  | star r, c => seq (r.deriv c) (star r)

/-- The call `/^r$/.test(s)`: the whole of `s` matches `r`. -/
def test (r : Regex) (s : String) : Bool :=
  (s.data.foldl deriv r).nullable

/-- The strings a regular expression denotes. -/
def Matches : Regex → List Char → Prop
  | nothing, _ => False
  | eps, w => w = []
  | cls p, w => ∃ c, p c = true ∧ w = [c]
  | alt r s, w => r.Matches w ∨ s.Matches w
  | seq r s, w => ∃ u v, w = u ++ v ∧ r.Matches u ∧ s.Matches v
  | star r, w => ∃ ws : List (List Char), w = ws.flatten ∧ ∀ u ∈ ws, r.Matches u

end Regex

/-- The pattern `/^[^ ]+@[^ ]+\.[a-z]{2,3}$/` (the part between the anchors). -/
def emailPattern : Regex :=
  let notSpace := Regex.cls fun c => c != ' '
  let lower := Regex.cls fun c => decide ('a' ≤ c) && decide (c ≤ 'z')
  .seq notSpace.plus <| .seq (.cls fun c => c == '@') <| .seq notSpace.plus <|
    .seq (.cls fun c => c == '.') <| .seq lower <| .seq lower lower.opt

/-- The `value` of the five fields of the registration form. -/
structure Form where
  name : String
  email : String
  department : String
  year : String
  projectTitle : String
  deriving DecidableEq

/-- What one run of the submit handler does: the `alert` shown, whether
`reset()` was called, and the field values afterwards. -/
structure SubmitOutcome where
  alert : String
  didReset : Bool
  form : Form
  deriving DecidableEq

/-- The expression `!s` for a string `s`. -/
def strEmpty (s : String) : Bool := !toBoolean (.str s)

/-- The submit handler of `registrationForm`.  `defaults` are the values
`reset()` restores. -/
def submitHandler (defaults form : Form) : SubmitOutcome :=
  let name := jsTrim form.name
  let email := jsTrim form.email
  let department := form.department
  let year := form.year
  let projectTitle := jsTrim form.projectTitle
  if strEmpty name || strEmpty email || strEmpty department || strEmpty year ||
      strEmpty projectTitle then
    { alert := "All fields must be filled!", didReset := false, form := form }
  else if !emailPattern.test email then
    { alert := "Invalid email format!", didReset := false, form := form }
  else
    { alert := "Registration Successful", didReset := true, form := defaults }

/-! ## JavaScript arithmetic and comparison on numbers

The rules for `NaN` and the infinities are those of the language.  `add` and
`sub` round a finite result to the nearest double; `mul` and `div` give the
exact product and quotient, which `round` turns into the double. -/

/-- Rounding to the nearest integer, a tie going to the even one. -/
def roundHalfEven (x : ℚ) : ℤ :=
  if x - ⌊x⌋ < 1 / 2 then ⌊x⌋
  else if 1 / 2 < x - ⌊x⌋ then ⌊x⌋ + 1
  else if ⌊x⌋ % 2 = 0 then ⌊x⌋ else ⌊x⌋ + 1

/-- The double nearest to the exact value `q` (IEEE 754 binary64, round to
nearest, ties to even): 53 significant bits, the unit in the last place being
`2 ^ (e - 52)` for `2 ^ e <= |q| < 2 ^ (e + 1)` and `2 ^ (-1074)` below
`2 ^ (-1022)`; a result of `2 ^ 1024` or more is an infinity. -/
def roundDouble (q : ℚ) : JSNum :=
  if q = 0 then .fin 0
  else
    let e : ℤ := max (Int.log 2 |q|) (-1022)
    let ulp : ℚ := 2 ^ (e - 52)
    let r : ℚ := roundHalfEven (|q| / ulp) * ulp
    if (2 : ℚ) ^ (1024 : ℤ) ≤ r then (if 0 < q then .posInf else .negInf)
    else .fin (if 0 < q then r else -r)

namespace JSNum

/-- The double nearest to an exact result. -/
def round : JSNum → JSNum
  | fin q => roundDouble q
  | a => a

/-- The test `Number.isNaN(a)`. -/
def isNaN : JSNum → Bool
  | nan => true
  | _ => false

/-- The sign of a number as a rational: the value itself when finite, `1` and
`-1` for the infinities, `0` for `NaN`. -/
def signum : JSNum → ℚ
  | fin q => q
  | nan => 0
  | posInf => 1
  | negInf => -1

/-- The infinity of the given sign, and `NaN` for sign `0`. -/
def infOfSign (s : ℚ) : JSNum :=
  if s = 0 then nan else if 0 < s then posInf else negInf

/-- The unary negation `-a`. -/
def neg : JSNum → JSNum
  | fin q => fin (-q)
  | nan => nan
  | posInf => negInf
  | negInf => posInf

/-- The sum `a + b`, rounded to the nearest double. -/
def add : JSNum → JSNum → JSNum
  | fin a, fin b => roundDouble (a + b)
  | nan, _ => nan
  | _, nan => nan
  | posInf, negInf => nan
  | negInf, posInf => nan
  | posInf, _ => posInf
  | _, posInf => posInf
  | negInf, _ => negInf
  | _, negInf => negInf

/-- The difference `a - b`, rounded to the nearest double. -/
def sub (a b : JSNum) : JSNum := add a (neg b)

/-- The exact product of `a` and `b`. -/
def mul : JSNum → JSNum → JSNum
  | fin a, fin b => fin (a * b)
  | nan, _ => nan
  | _, nan => nan
  | a, b => infOfSign (a.signum * b.signum)

/-- The exact quotient of `a` by `b` (a zero divisor is the positive zero). -/
def div : JSNum → JSNum → JSNum
  | nan, _ => nan
  | _, nan => nan
  | fin a, fin b => if b = 0 then infOfSign a else fin (a / b)
  | fin _, posInf => fin 0
  | fin _, negInf => fin 0
  | posInf, fin b => if b = 0 then posInf else infOfSign b
  | negInf, fin b => if b = 0 then negInf else infOfSign (-b)
  | posInf, posInf => nan
  | posInf, negInf => nan
  | negInf, posInf => nan
  | negInf, negInf => nan

/-- The comparison `a < b`. -/
def lt : JSNum → JSNum → Bool
  | nan, _ => false
  | _, nan => false
  | fin a, fin b => decide (a < b)
  | negInf, negInf => false
  | negInf, _ => true
  | _, negInf => false
  | posInf, _ => false
  | fin _, posInf => true

/-- The comparison `a <= b`. -/
def le : JSNum → JSNum → Bool
  | nan, _ => false
  | _, nan => false
  | fin a, fin b => decide (a ≤ b)
  | negInf, _ => true
  | _, posInf => true
  | posInf, _ => false
  | fin _, negInf => false

/-- The strict equality `a === b` of two numbers. -/
def strictEq : JSNum → JSNum → Bool
  | nan, _ => false
  | _, nan => false
  | a, b => decide (a = b)

end JSNum

/-! ## mathUtils.js: arithmetic and aggregates -/

/-- The number a value is when `typeof v === 'number'`. -/
def numberOf : JSVal → Option JSNum
  | .num n => some n
  | _ => none

/-- The built-in `Math.max` applied to the arguments `ns`: `NaN` if any
argument is `NaN`, otherwise the largest argument, starting from `-Infinity`. -/
def mathMax (ns : List JSNum) : JSNum :=
  if ns.any JSNum.isNaN then .nan
  else ns.foldl (fun highest n => if JSNum.lt highest n then n else highest) .negInf

/-- The built-in `Math.min` applied to the arguments `ns`: `NaN` if any
argument is `NaN`, otherwise the smallest argument, starting from `+Infinity`. -/
def mathMin (ns : List JSNum) : JSNum :=
  if ns.any JSNum.isNaN then .nan
  else ns.foldl (fun lowest n => if JSNum.lt n lowest then n else lowest) .posInf

/-- The call `f(...args)`, which passes every element of `args` as an argument
of its own: the engine accepts at most `maxArgs` arguments in a call and throws
a `RangeError` when there are more. -/
def spreadCall (maxArgs : Nat) (f : List JSNum → JSNum) (args : List JSNum) :
    Except String JSNum :=
  if args.length > maxArgs then .error "RangeError: Maximum call stack size exceeded"
  else .ok (f args)

/-- The integer a value denotes when `typeof v === 'number'` and
`Number.isInteger(v)`. -/
def asInteger : JSVal → Option Int
  | .num (.fin q) => if q.den = 1 then some q.num else none
  | _ => none

/-- The loop `for (let i = 2; i <= n; i++) result *= i`, entered with the
current `i` and `result` and run for at most `fuel` iterations; `none` when the
loop is still running after `fuel` iterations. -/
def factorialLoop : Nat → JSNum → JSNum → JSNum → Option JSNum
  | 0, _, _, _ => none
  | fuel + 1, n, i, result =>
    if JSNum.le i n then
      factorialLoop fuel n (JSNum.add i (.fin 1)) (JSNum.round (JSNum.mul result i))
    else some result

/-- The function `factorial(n)`, its loop run for at most `fuel` iterations;
`none` when the call has not returned by then. -/
def factorial (fuel : Nat) (n : JSVal) : Option (Except String JSVal) :=
  match asInteger n with
  | none => some (.error "Parameter must be a non-negative integer")
  | some k =>
    if k < 0 then some (.error "Parameter must be a non-negative integer")
    else if k = 0 ∨ k = 1 then some (.ok (.num (.fin 1)))
    else (factorialLoop fuel (.fin k) (.fin 2) (.fin 1)).map fun result => .ok (.num result)

namespace MathUtils

/-- The function `add(a, b)`. -/
def add (a b : JSVal) : Except String JSVal :=
  match numberOf a, numberOf b with
  | some x, some y => .ok (.num (JSNum.add x y))
  | _, _ => .error "Both parameters must be numbers"

/-- The function `multiply(a, b)`. -/
def multiply (a b : JSVal) : Except String JSVal :=
  match numberOf a, numberOf b with
  | some x, some y => .ok (.num (JSNum.mul x y))
  | _, _ => .error "Both parameters must be numbers"

/-- The function `divide(a, b)`. -/
def divide (a b : JSVal) : Except String JSVal :=
  match numberOf a, numberOf b with
  | some x, some y =>
    if JSNum.strictEq y (.fin 0) then .error "Division by zero is not allowed"
    else .ok (.num (JSNum.div x y))
  | _, _ => .error "Both parameters must be numbers"

/-- The function `sqrt(x)`; `mathSqrt` is the built-in `Math.sqrt`. -/
def sqrt (mathSqrt : JSNum → JSNum) (x : JSVal) : Except String JSVal :=
  match numberOf x with
  | none => .error "Parameter must be a number"
  | some n =>
    if JSNum.lt n (.fin 0) then .error "Cannot calculate square root of negative number"
    else .ok (.num (mathSqrt n))

/-- The function `max(numbers)`; `maxArgs` is the largest number of arguments
the engine accepts in the call `Math.max(...numbers)`. -/
def max (maxArgs : Nat) (numbers : JSVal) : Except String JSVal :=
  match numbers with
  | .arr items =>
    if items.length = 0 then .error "Parameter must be a non-empty array"
    else if !items.all (fun n => typeOf n == .number) then
      .error "All array elements must be numbers"
    else
      match spreadCall maxArgs mathMax (items.filterMap numberOf) with
      | .error e => .error e
      | .ok highest => .ok (.num highest)
  | _ => .error "Parameter must be a non-empty array"

/-- The function `min(numbers)`; `maxArgs` is the largest number of arguments
the engine accepts in the call `Math.min(...numbers)`. -/
def min (maxArgs : Nat) (numbers : JSVal) : Except String JSVal :=
  match numbers with
  | .arr items =>
    if items.length = 0 then .error "Parameter must be a non-empty array"
    else if !items.all (fun n => typeOf n == .number) then
      .error "All array elements must be numbers"
    else
      match spreadCall maxArgs mathMin (items.filterMap numberOf) with
      | .error e => .error e
      | .ok lowest => .ok (.num lowest)
  | _ => .error "Parameter must be a non-empty array"

/-- The function `average(numbers)`. -/
def average (numbers : JSVal) : Except String JSVal :=
  match numbers with
  | .arr items =>
    if items.length = 0 then .error "Parameter must be a non-empty array"
    else if !items.all (fun n => typeOf n == .number) then
      .error "All array elements must be numbers"
    else
      let sum := (items.filterMap numberOf).foldl (fun acc num => JSNum.add acc num) (.fin 0)
      .ok (.num (JSNum.round (JSNum.div sum (.fin items.length))))
  | _ => .error "Parameter must be a non-empty array"

end MathUtils

/-! ## profileUtils.js: the returned record as a JavaScript object -/

/-- The object literal `validateProfileData` returns, as a value that can be
passed to `validateProfileData` again. -/
def Profile.toJS (p : Profile) : JSVal :=
  .obj [("name", .str p.name), ("role", .str p.role), ("id", p.id), ("avatar", p.avatar),
    ("email", p.email), ("department", p.department), ("skills", .arr (p.skills.map .str))]

/-! ## main.js: dynamic cards, profiles and notifications

The page state is the two counters, the children of `cardsContainer` and of
`profilesContainer`, and the `showNotification` calls made so far.  Inline
styles are not part of the state.  A callback passed to `setTimeout` is an
operation of its own, run later. -/

/-- One `showNotification(message, type)` call. -/
structure Notification where
  message : String
  type : String
  deriving DecidableEq

/-- A child of `cardsContainer`: the text of its title, the time shown, and
whether its class list contains `fade-out`. -/
structure DynamicCard where
  title : String
  created : String
  fadeOut : Bool
  deriving DecidableEq

/-- The state of the page controller.  A child of `profilesContainer` is
represented by the validated record its card was built from. -/
structure AppState where
  cardCounter : Nat
  profileCounter : Nat
  cards : List DynamicCard
  profiles : List Profile
  notifications : List Notification

/-- The call `showNotification(message, type)`. -/
def showNotification (message type : String) (st : AppState) : AppState :=
  { st with notifications := st.notifications ++ [{ message := message, type := type }] }

/-- The function `createDynamicCard()`; `time` is the value of
`new Date().toLocaleTimeString()`. -/
def createDynamicCard (time : String) (st : AppState) : AppState :=
  let st1 := { st with cardCounter := st.cardCounter + 1 }
  let card : DynamicCard :=
    { title := "Dynamic Card #" ++ toString st1.cardCounter, created := time, fadeOut := false }
  let st2 := { st1 with cards := st1.cards ++ [card] }
  showNotification "✨ Card created successfully!" "success" st2

/-- The function `deleteCard(button)` up to its `setTimeout`, for the button of
the card at position `i`. -/
def deleteCard (i : Nat) (st : AppState) : AppState :=
  { st with cards := st.cards.modify (fun card => { card with fadeOut := true }) i }

/-- The callback `deleteCard` schedules, for the card at position `i`. -/
def deleteCardTimeout (i : Nat) (st : AppState) : AppState :=
  showNotification "🗑️ Card deleted" "info" { st with cards := st.cards.eraseIdx i }

/-- The test `!answer || answer.trim() === ''` on what `prompt` returned
(`null` when the dialog is cancelled). -/
def promptBlank : Option String → Bool
  | none => true
  | some s => !toBoolean (.str s) || decide (jsTrim s = "")

/-- The function `addProfile()`; `nameAnswer` and `roleAnswer` are what the two
`prompt` calls return, and `now` is the value of `Date.now()`. -/
def addProfile (now : Int) (nameAnswer roleAnswer : Option String) (st : AppState) :
    Except String AppState :=
  if promptBlank nameAnswer then
    .ok (showNotification "❌ Name cannot be empty!" "error" st)
  else if promptBlank roleAnswer then
    .ok (showNotification "❌ Role cannot be empty!" "error" st)
  else
    let name := nameAnswer.getD ""
    let role := roleAnswer.getD ""
    let st1 := { st with profileCounter := st.profileCounter + 1 }
    match validateProfileData now
        (.obj [("name", .str (jsTrim name)), ("role", .str (jsTrim role)),
          ("id", .num (.fin st1.profileCounter))]) with
    | .error e => .error e
    | .ok profileCard =>
      let st2 := { st1 with profiles := st1.profiles ++ [profileCard] }
      .ok (showNotification ("👤 " ++ name ++ " added to the team!") "success" st2)

/-- The callback `removeProfile` schedules, for the card at position `i`;
`name` is the text of its `.profile-name` element, read when the button was
clicked. -/
def removeProfileTimeout (i : Nat) (name : String) (st : AppState) : AppState :=
  showNotification ("👋 " ++ name ++ " removed from team") "info"
    { st with profiles := st.profiles.eraseIdx i }

/-- An operation of the page controller. -/
inductive Op where
  | createDynamicCard (time : String)
  | deleteCard (i : Nat)
  | deleteCardTimeout (i : Nat)
  | addProfile (now : Int) (nameAnswer roleAnswer : Option String)
  | removeProfileTimeout (i : Nat) (name : String)

/-- Running one operation.  An `addProfile` that throws stops after its
`profileCounter++`. -/
def step (st : AppState) : Op → AppState
  | .createDynamicCard time => createDynamicCard time st
  | .deleteCard i => deleteCard i st
  | .deleteCardTimeout i => deleteCardTimeout i st
  | .addProfile now nameAnswer roleAnswer =>
    match addProfile now nameAnswer roleAnswer st with
    | .ok st1 => st1
    | .error _ => { st with profileCounter := st.profileCounter + 1 }
  | .removeProfileTimeout i name => removeProfileTimeout i name st

/-- Running a sequence of operations, in order. -/
def run (st : AppState) (ops : List Op) : AppState :=
  ops.foldl step st

/-! ## script.js: the colour-cycling button

The state is `colorIndex`, the `backgroundColor` assigned to the body's style
and the text of the `h1` heading. -/

/-- The array `colors`. -/
def colors : List String := ["#ffcccc", "#ccffcc", "#ccccff", "#ffffcc"]

/-- The state the click handler of `colorChangeBtn` reads and writes. -/
structure ThemeState where
  colorIndex : Nat
  backgroundColor : String
  headingText : String
  deriving DecidableEq

/-- The element read `colors[i]`: `undefined` past the end of the array. -/
def colorAt (i : Nat) : JSVal :=
  match colors.get? i with
  | some color => .str color
  | none => .undefined

/-- The click handler of `colorChangeBtn`.  An `undefined` colour is not a
valid style value, so assigning it leaves `backgroundColor` as it was, and the
template prints it as `undefined`. -/
def colorBtnClick (st : ThemeState) : ThemeState :=
  match colorAt st.colorIndex with
  | .str color =>
    { colorIndex := (st.colorIndex + 1) % colors.length
      backgroundColor := color
      headingText := "Theme Color Changed to " ++ color }
  | _ =>
    { colorIndex := (st.colorIndex + 1) % colors.length
      backgroundColor := st.backgroundColor
      headingText := "Theme Color Changed to undefined" }

/-- The state after `k` clicks. -/
def clickTimes : Nat → ThemeState → ThemeState
  | 0, st => st
  | k + 1, st => colorBtnClick (clickTimes k st)

/-! ## Properties of validateProfileData -/

theorem string_eq_empty_iff (s : String) : s = "" ↔ s.length = 0 := by
  constructor
  · intro h; rw [h]; rfl
  · intro h; apply String.ext; exact List.length_eq_zero.mp h

theorem jsTrim_empty_of_length (s : String) (h : s.length = 0) : jsTrim s = "" := by
  have : s = "" := (string_eq_empty_iff s).2 h
  subst this; rfl

/-- The values of a required field that pass the check. -/
theorem required_check (x : JSVal) :
    (!toBoolean x || typeOf x != .string || trimLength x == 0) = false ↔
      ∃ s, x = .str s ∧ jsTrim s ≠ "" := by
  cases x <;> simp [toBoolean, typeOf, trimLength]
  case str s =>
    rw [string_eq_empty_iff (jsTrim s)]
    constructor
    · exact fun h => h.2
    · intro h
      refine ⟨fun h0 => h ?_, h⟩
      rw [jsTrim_empty_of_length s h0]; rfl

theorem first_check (v : JSVal) :
    (!toBoolean v || typeOf v != .object) = false ↔
      (∃ fields, v = .obj fields) ∨ (∃ items, v = .arr items) := by
  cases v <;> simp [toBoolean, typeOf]

theorem validate_arr (now : Int) (items : List JSVal) :
    validateProfileData now (.arr items) = .error "Name is required and must be a non-empty string" := by
  simp [validateProfileData, toBoolean, typeOf, getProp, trimLength]

theorem validate_obj (now : Int) (fields : List (String × JSVal)) :
    validateProfileData now (.obj fields) =
      if (!toBoolean (getProp (.obj fields) "name") || typeOf (getProp (.obj fields) "name") != .string
          || trimLength (getProp (.obj fields) "name") == 0) then
        .error "Name is required and must be a non-empty string"
      else if (!toBoolean (getProp (.obj fields) "role") || typeOf (getProp (.obj fields) "role") != .string
          || trimLength (getProp (.obj fields) "role") == 0) then
        .error "Role is required and must be a non-empty string"
      else
        .ok { name := trimOf (getProp (.obj fields) "name"), role := trimOf (getProp (.obj fields) "role"),
              id := jsOr (getProp (.obj fields) "id") (.num (.fin now)),
              avatar := jsOr (getProp (.obj fields) "avatar") .null,
              email := trimmedOrNull (getProp (.obj fields) "email"),
              department := trimmedOrNull (getProp (.obj fields) "department"),
              skills := normalizeSkills (getProp (.obj fields) "skills") } := by
  simp [validateProfileData, toBoolean, typeOf]

theorem validate_ok_iff (now : Int) (v : JSVal) (p : Profile) :
    validateProfileData now v = .ok p ↔
      ∃ fields s r, v = .obj fields ∧ getProp v "name" = .str s ∧ jsTrim s ≠ "" ∧
        getProp v "role" = .str r ∧ jsTrim r ≠ "" ∧
        p = { name := jsTrim s, role := jsTrim r,
              id := jsOr (getProp v "id") (.num (.fin now)),
              avatar := jsOr (getProp v "avatar") .null,
              email := trimmedOrNull (getProp v "email"),
              department := trimmedOrNull (getProp v "department"),
              skills := normalizeSkills (getProp v "skills") } := by
  constructor
  · intro h
    by_cases h1 : (!toBoolean v || typeOf v != .object) = false
    · rcases (first_check v).1 h1 with ⟨fields, rfl⟩ | ⟨items, rfl⟩
      · rw [validate_obj] at h
        split at h
        · cases h
        · rename_i hn
          split at h
          · cases h
          · rename_i hr
            obtain ⟨s, hs, hs'⟩ := (required_check _).1 (by simpa using hn)
            obtain ⟨r, hr, hr'⟩ := (required_check _).1 (by simpa using hr)
            refine ⟨fields, s, r, rfl, hs, hs', hr, hr', ?_⟩
            injection h with h
            rw [← h, hs, hr]; rfl
      · rw [validate_arr] at h; cases h
    · have h1' := (Bool.not_eq_false _).mp h1
      rw [validateProfileData, if_pos h1'] at h
      cases h
  · rintro ⟨fields, s, r, rfl, hs, hs', hr, hr', rfl⟩
    rw [validate_obj]
    have hn := (required_check (getProp (.obj fields) "name")).2 ⟨s, hs, hs'⟩
    have hr2 := (required_check (getProp (.obj fields) "role")).2 ⟨r, hr, hr'⟩
    rw [hn, hr2]
    simp [hs, hr, trimOf]
theorem validate_error_of_not_ok (now : Int) (v : JSVal)
    (h : ∀ p, validateProfileData now v ≠ .ok p) : ∃ e, validateProfileData now v = .error e := by
  cases hv : validateProfileData now v with
  | error e => exact ⟨e, rfl⟩
  | ok p => exact absurd hv (h p)

theorem jsTrim_head_not_space (s : String) (c : Char)
    (h : (jsTrim s).data.head? = some c) : isJSWhiteSpace c = false := by
  simp only [jsTrim, List.head?_reverse] at h
  have hne : (s.data.dropWhile isJSWhiteSpace).reverse.dropWhile isJSWhiteSpace ≠ [] := by
    intro h0; rw [h0] at h; cases h
  have hsuf := List.dropWhile_suffix (l := (s.data.dropWhile isJSWhiteSpace).reverse) isJSWhiteSpace
  have hlast := hsuf.getLast hne
  rw [List.getLast?_eq_getLast _ hne, hlast] at h
  have h2 : (s.data.dropWhile isJSWhiteSpace).reverse.getLast? = some c := by
    rw [List.getLast?_eq_getLast _ (hsuf.ne_nil hne)]; exact h
  rw [List.getLast?_reverse] at h2
  have h3 := List.head?_dropWhile_not isJSWhiteSpace s.data
  rw [h2] at h3
  exact h3

theorem jsTrim_last_not_space (s : String) (c : Char)
    (h : (jsTrim s).data.getLast? = some c) : isJSWhiteSpace c = false := by
  simp only [jsTrim, List.getLast?_reverse] at h
  have h3 := List.head?_dropWhile_not isJSWhiteSpace (s.data.dropWhile isJSWhiteSpace).reverse
  rw [h] at h3
  exact h3

/-- C1: `validateProfileData` raises an error for every input that is not a
record, for every record whose `name` is missing, not a string or blank after
trimming, and for every record whose `role` is; for every record whose `name`
and `role` are both strings that are non-blank after trimming it returns a
profile. -/
theorem validateProfileData_fails_or_accepts (now : Int) (v : JSVal) :
    ((∀ fields, v ≠ .obj fields) → ∃ e, validateProfileData now v = .error e) ∧
    (∀ fields, v = .obj fields →
      (getProp v "name" = .undefined ∨ typeOf (getProp v "name") ≠ .string ∨
          (∃ s, getProp v "name" = .str s ∧ jsTrim s = "")) →
        validateProfileData now v = .error "Name is required and must be a non-empty string") ∧
    (∀ fields, v = .obj fields →
      (getProp v "role" = .undefined ∨ typeOf (getProp v "role") ≠ .string ∨
          (∃ r, getProp v "role" = .str r ∧ jsTrim r = "")) →
        ∃ e, validateProfileData now v = .error e) ∧
    (∀ fields s r, v = .obj fields → getProp v "name" = .str s → jsTrim s ≠ "" →
        getProp v "role" = .str r → jsTrim r ≠ "" →
        ∃ p, validateProfileData now v = .ok p) := by
  refine ⟨?_, ?_, ?_, ?_⟩
  · intro hv
    apply validate_error_of_not_ok
    intro p hp
    obtain ⟨fields, _, _, rfl, _⟩ := (validate_ok_iff now v p).1 hp
    exact hv fields rfl
  · rintro fields rfl hbad
    rw [validate_obj, if_pos]
    by_contra hc
    obtain ⟨s, hs, hs'⟩ := (required_check _).1 ((Bool.not_eq_true _).mp hc)
    rcases hbad with h | h | ⟨s2, h, h'⟩
    · rw [hs] at h; cases h
    · rw [hs] at h; exact h rfl
    · rw [hs] at h; cases h; exact hs' h'
  · rintro fields rfl hbad
    apply validate_error_of_not_ok
    intro p hp
    obtain ⟨_, _, r, _, _, _, hr, hr', _⟩ := (validate_ok_iff now _ p).1 hp
    rcases hbad with h | h | ⟨s2, h, h'⟩
    · rw [hr] at h; cases h
    · rw [hr] at h; exact h rfl
    · rw [hr] at h; cases h; exact hr' h'
  · intro fields s r hv hs hs' hr hr'
    exact ⟨_, (validate_ok_iff now v _).2 ⟨fields, s, r, hv, hs, hs', hr, hr', rfl⟩⟩

theorem validateProfileData_fails_or_accepts_witness :
    (∃ e, validateProfileData 0 .null = .error e) ∧
    (∃ e, validateProfileData 0 (.obj [("name", .str "  "), ("role", .str "B")]) = .error e) ∧
    (∃ p, validateProfileData 0 (.obj [("name", .str "A"), ("role", .str "B")]) = .ok p) :=
  ⟨(validateProfileData_fails_or_accepts 0 .null).1 (fun _ h => by cases h),
   ⟨_, (validateProfileData_fails_or_accepts 0 _).2.1 _ rfl (Or.inr (Or.inr ⟨"  ", rfl, by decide⟩))⟩,
   (validateProfileData_fails_or_accepts 0 _).2.2.2 _ "A" "B" rfl rfl (by decide) rfl (by decide)⟩

/-- C2: for every record that carries only a `name` and a `role`, both
non-blank after trimming (such as `{name: "A", role: "B"}`),
`validateProfileData` returns a record whose `skills` is empty, whose `avatar`,
`email` and `department` are `null`, and whose `name` and `role` are the
trimmed inputs. -/
theorem validateProfileData_minimal (now : Int) (fields : List (String × JSVal)) (s r : String)
    (hname : getProp (.obj fields) "name" = .str s) (hs : jsTrim s ≠ "")
    (hrole : getProp (.obj fields) "role" = .str r) (hr : jsTrim r ≠ "")
    (honly : ∀ key, key ≠ "name" → key ≠ "role" → getProp (.obj fields) key = .undefined) :
    ∃ p, validateProfileData now (.obj fields) = .ok p ∧
      p.skills = [] ∧ p.avatar = .null ∧ p.email = .null ∧ p.department = .null ∧
      p.name = jsTrim s ∧ p.role = jsTrim r := by
  refine ⟨_, (validate_ok_iff now _ _).2 ⟨fields, s, r, rfl, hname, hs, hrole, hr, rfl⟩, ?_⟩
  rw [honly "skills" (by decide) (by decide), honly "avatar" (by decide) (by decide),
    honly "email" (by decide) (by decide), honly "department" (by decide) (by decide)]
  exact ⟨rfl, rfl, rfl, rfl, rfl, rfl⟩

theorem validateProfileData_minimal_witness :
    ∃ p, validateProfileData 0 (.obj [("name", .str "A"), ("role", .str "B")]) = .ok p ∧
      p.skills = [] ∧ p.avatar = .null ∧ p.email = .null ∧ p.department = .null ∧
      p.name = jsTrim "A" ∧ p.role = jsTrim "B" :=
  validateProfileData_minimal 0 [("name", .str "A"), ("role", .str "B")] "A" "B" rfl (by decide)
    rfl (by decide) (by
      intro key h1 h2
      have e1 : (key == "name") = false := beq_false_of_ne h1
      have e2 : (key == "role") = false := beq_false_of_ne h2
      simp [getProp, List.lookup, e1, e2])

/-- C3: for every input `validateProfileData` accepts, the returned `name` and
`role` are the trimmed input `name` and `role`, are non-empty, and neither
starts nor ends with a white-space character. -/
theorem validateProfileData_name_role_trimmed (now : Int) (v : JSVal) (p : Profile)
    (h : validateProfileData now v = .ok p) :
    ∃ s r, getProp v "name" = .str s ∧ getProp v "role" = .str r ∧
      p.name = jsTrim s ∧ p.role = jsTrim r ∧ p.name ≠ "" ∧ p.role ≠ "" ∧
      (∀ c, p.name.data.head? = some c → isJSWhiteSpace c = false) ∧
      (∀ c, p.name.data.getLast? = some c → isJSWhiteSpace c = false) ∧
      (∀ c, p.role.data.head? = some c → isJSWhiteSpace c = false) ∧
      (∀ c, p.role.data.getLast? = some c → isJSWhiteSpace c = false) := by
  obtain ⟨fields, s, r, rfl, hs, hs', hr, hr', rfl⟩ := (validate_ok_iff now v p).1 h
  exact ⟨s, r, hs, hr, rfl, rfl, hs', hr', jsTrim_head_not_space s, jsTrim_last_not_space s,
    jsTrim_head_not_space r, jsTrim_last_not_space r⟩

theorem validateProfileData_name_role_trimmed_witness :
    ∃ s r, getProp (.obj [("name", .str " Ada "), ("role", .str "Dev\n")]) "name" = .str s ∧
      getProp (.obj [("name", .str " Ada "), ("role", .str "Dev\n")]) "role" = .str r ∧
      "Ada" = jsTrim s ∧ "Dev" = jsTrim r ∧ "Ada" ≠ "" ∧ "Dev" ≠ "" ∧
      (∀ c, "Ada".data.head? = some c → isJSWhiteSpace c = false) ∧
      (∀ c, "Ada".data.getLast? = some c → isJSWhiteSpace c = false) ∧
      (∀ c, "Dev".data.head? = some c → isJSWhiteSpace c = false) ∧
      (∀ c, "Dev".data.getLast? = some c → isJSWhiteSpace c = false) :=
  validateProfileData_name_role_trimmed 7 (.obj [("name", .str " Ada "), ("role", .str "Dev\n")])
    { name := "Ada", role := "Dev", id := .num (.fin ((7 : Int) : ℚ)), avatar := .null,
      email := .null, department := .null, skills := [] } rfl

/-- C4 as stated fails: an input whose `id` is the number `0` is accepted, and
the returned `id` is the `Date.now()` default, not `0`. -/
theorem validateProfileData_id_zero_replaced :
    ¬ ∀ (now : Int) (v : JSVal) (p : Profile) (n : JSNum),
        validateProfileData now v = .ok p → getProp v "id" = .num n → p.id = .num n := by
  intro h
  have h0 := h 1700000000000
    (.obj [("name", .str "A"), ("role", .str "B"), ("id", .num (.fin 0))])
    { name := "A", role := "B", id := .num (.fin ((1700000000000 : Int) : ℚ)), avatar := .null,
      email := .null, department := .null, skills := [] } (.fin 0) rfl rfl
  simp at h0

/-- C4, amended: for every input `validateProfileData` accepts, a truthy `id`
(for a number: any value other than `0` and `NaN`) is returned unchanged, and
the returned `id` is the `Date.now()` default exactly when the input `id` is
absent or otherwise falsy. -/
theorem validateProfileData_id (now : Int) (v : JSVal) (p : Profile)
    (h : validateProfileData now v = .ok p) :
    (toBoolean (getProp v "id") = true → p.id = getProp v "id") ∧
    (toBoolean (getProp v "id") = false → p.id = .num (.fin now)) ∧
    (∀ q : ℚ, getProp v "id" = .num (.fin q) → q ≠ 0 → p.id = .num (.fin q)) ∧
    (getProp v "id" = .num .posInf → p.id = .num .posInf) ∧
    (getProp v "id" = .num .negInf → p.id = .num .negInf) ∧
    (getProp v "id" = .undefined → p.id = .num (.fin now)) := by
  obtain ⟨fields, s, r, rfl, hs, hs', hr, hr', rfl⟩ := (validate_ok_iff now v p).1 h
  refine ⟨?_, ?_, ?_, ?_, ?_, ?_⟩
  · intro ht; simp [jsOr, ht]
  · intro hf; simp [jsOr, hf]
  · intro q hq hq0; simp [jsOr, hq, toBoolean, JSNum.truthy, hq0]
  · intro hq; simp [jsOr, hq, toBoolean, JSNum.truthy]
  · intro hq; simp [jsOr, hq, toBoolean, JSNum.truthy]
  · intro hq; simp [jsOr, hq, toBoolean]

theorem validateProfileData_id_witness :
    JSVal.num (.fin 3) =
      getProp (.obj [("name", .str "A"), ("role", .str "B"), ("id", .num (.fin 3))]) "id" :=
  (validateProfileData_id 9 (.obj [("name", .str "A"), ("role", .str "B"), ("id", .num (.fin 3))])
    { name := "A", role := "B", id := .num (.fin 3), avatar := .null,
      email := .null, department := .null, skills := [] } rfl).1 rfl

theorem filterSkills_map (items : List JSVal) :
    (filterSkills items).map JSVal.str =
      items.filter fun x => match x with
        | .str s => decide (jsTrim s ≠ "")
        | _ => false := by
  induction items with
  | nil => rfl
  | cons x xs ih =>
    cases x <;> simp [filterSkills, List.filterMap_cons, List.filter_cons] at ih ⊢ <;> try exact ih
    case str s =>
      by_cases hs : jsTrim s = ""
      · simp [hs, ih]
      · have hlen : 0 < (jsTrim s).length := by
          rw [Nat.pos_iff_ne_zero]; exact fun h0 => hs ((string_eq_empty_iff _).2 h0)
        simp [hs, hlen, ih]

/-- C5: for every input `validateProfileData` accepts, the returned `skills`
are exactly the entries of the input `skills` array that are strings and
non-blank after trimming, unchanged and in their original order; when the input
`skills` is absent or not an array, the returned `skills` is empty. -/
theorem validateProfileData_skills (now : Int) (v : JSVal) (p : Profile)
    (h : validateProfileData now v = .ok p) :
    (∀ items, getProp v "skills" = .arr items →
      p.skills.map JSVal.str =
          (items.filter fun x => match x with
            | .str s => decide (jsTrim s ≠ "")
            | _ => false) ∧
        List.Sublist (p.skills.map JSVal.str) items) ∧
    ((∀ items, getProp v "skills" ≠ .arr items) → p.skills = []) := by
  obtain ⟨fields, s, r, rfl, hs, hs', hr, hr', rfl⟩ := (validate_ok_iff now v p).1 h
  constructor
  · intro items hitems
    have hmap := filterSkills_map items
    simp only [hitems, normalizeSkills]
    refine ⟨hmap, ?_⟩
    rw [hmap]
    exact List.filter_sublist _
  · intro hno
    cases hk : getProp (.obj fields) "skills" <;> simp only [hk, normalizeSkills]
    case arr items => exact absurd hk (hno items)

theorem validateProfileData_skills_witness :
    List.map JSVal.str ["js", "css"] =
      ([JSVal.str "js", .num (.fin 4), .str "  ", .str "css", .null].filter fun x =>
        match x with
        | .str s => decide (jsTrim s ≠ "")
        | _ => false) :=
  ((validateProfileData_skills 0
    (.obj [("name", .str "A"), ("role", .str "B"),
      ("skills", .arr [.str "js", .num (.fin 4), .str "  ", .str "css", .null])])
    { name := "A", role := "B", id := .num (.fin ((0 : Int) : ℚ)), avatar := .null,
      email := .null, department := .null, skills := ["js", "css"] } rfl).1 _ rfl).1

/-! ## Properties of createProfileCard and generateInitials -/

theorem slice_badges (skills : List String) :
    (jsSlice skills 0 3).map skillBadge =
      List.ofFn fun i : Fin (min skills.length 3) =>
        "<span class=\"skill-badge\">" ++
          skills.get ⟨i.1, lt_of_lt_of_le i.2 (min_le_left _ _)⟩ ++ "</span>" := by
  apply List.ext_get
  · simp [jsSlice, min_comm]
  · intro n h1 h2
    simp [jsSlice, skillBadge]

theorem filterSkills_of_valid (skills : List String) (hvalid : ∀ s ∈ skills, jsTrim s ≠ "") :
    filterSkills (skills.map JSVal.str) = skills := by
  induction skills with
  | nil => rfl
  | cons x xs ih =>
    have hx : 0 < (jsTrim x).length := by
      rw [Nat.pos_iff_ne_zero]
      exact fun h0 => hvalid x (List.mem_cons_self _ _) ((string_eq_empty_iff _).2 h0)
    have ih2 := ih fun s hs => hvalid s (List.mem_cons_of_mem _ hs)
    simp only [filterSkills] at ih2 ⊢
    simp [List.filterMap_cons, hx, ih2]

/-- C6: for every profile `validateProfileData` accepts, with `n` the number of
its validated skills, the skills block of `createProfileCard` is absent (the
empty string) when `n = 0`, and otherwise consists of one badge for each of the first `min n 3`
skills, in order, followed by the overflow indicator `+(n-3)` exactly when
`n > 3`; the validated skills are the input skills whenever those are all
non-blank strings. -/
theorem createProfileCard_skills_block (now : Int) (v : JSVal) (p : Profile)
    (h : validateProfileData now v = .ok p) :
    createProfileCardSkills now v = .ok
      (if p.skills.length = 0 then ""
       else
        "<div class=\"profile-skills\">\n            " ++
          String.join (List.ofFn fun i : Fin (min p.skills.length 3) =>
            "<span class=\"skill-badge\">" ++
              p.skills.get ⟨i.1, lt_of_lt_of_le i.2 (min_le_left _ _)⟩ ++ "</span>") ++
          "\n            " ++
          (if 3 < p.skills.length then
            "<span class=\"skill-more\">+" ++ toString (p.skills.length - 3) ++ "</span>"
           else "") ++
          "\n        </div>") ∧
    (∀ skills : List String, getProp v "skills" = .arr (skills.map JSVal.str) →
      (∀ s ∈ skills, jsTrim s ≠ "") → p.skills = skills) ∧
    (p.skills = [] → createProfileCardSkills now v = .ok "") := by
  refine ⟨?_, ?_, ?_⟩
  · simp only [createProfileCardSkills, h, skillsBadges, slice_badges]
    by_cases h0 : p.skills.length = 0
    · simp [h0]
    · have : p.skills.length > 0 := Nat.pos_of_ne_zero h0
      simp only [this, h0, if_true, if_false, gt_iff_lt]
  · intro skills hskills hvalid
    obtain ⟨fields, s, r, rfl, hs, hs', hr, hr', rfl⟩ := (validate_ok_iff now v p).1 h
    simp only [hskills, normalizeSkills]
    exact filterSkills_of_valid skills hvalid
  · intro hnil
    simp [createProfileCardSkills, h, skillsBadges, hnil]

theorem createProfileCard_skills_block_witness :
    createProfileCardSkills 0
      (.obj [("name", .str "A"), ("role", .str "B"),
        ("skills", .arr [.str "a", .str "b", .str "c", .str "d", .str "e"])]) =
      .ok ("<div class=\"profile-skills\">\n            " ++
        "<span class=\"skill-badge\">a</span><span class=\"skill-badge\">b</span>" ++
        "<span class=\"skill-badge\">c</span>" ++
        "\n            <span class=\"skill-more\">+2</span>\n        </div>") :=
  (createProfileCard_skills_block 0
    (.obj [("name", .str "A"), ("role", .str "B"),
        ("skills", .arr [.str "a", .str "b", .str "c", .str "d", .str "e"])])
    { name := "A", role := "B", id := .num (.fin ((0 : Int) : ℚ)), avatar := .null,
      email := .null, department := .null, skills := ["a", "b", "c", "d", "e"] } rfl).1

/-- On a non-empty string `charAt(0)` is its first UTF-16 code unit. -/
theorem charAt_zero (w : String) (h : 0 < w.length) :
    ∃ u, charAt w 0 = [u] ∧ (utf16 w).head? = some u := by
  obtain ⟨data⟩ := w
  cases data with
  | nil => exact absurd h (Nat.lt_irrefl 0)
  | cons c cs =>
    by_cases hc : c.toNat < 0x10000
    · exact ⟨c.toNat, by simp [charAt, utf16, utf16Units, hc], by simp [utf16, utf16Units, hc]⟩
    · exact ⟨0xD800 + (c.toNat - 0x10000) / 0x400, by simp [charAt, utf16, utf16Units, hc],
        by simp [utf16, utf16Units, hc]⟩

theorem generateInitials_str (upper : List Nat → List Nat) (s : String) :
    generateInitials upper (.str s) =
      if (nameWords s).length = 0 then utf16 "??"
      else if (nameWords s).length = 1 then upper (charAt ((nameWords s).getD 0 "") 0)
      else upper (charAt ((nameWords s).getD 0 "") 0 ++
        charAt ((nameWords s).getD ((nameWords s).length - 1) "") 0) := by
  by_cases h0 : s.length = 0
  · have : s = "" := (string_eq_empty_iff s).2 h0
    subst this
    simp [generateInitials, toBoolean, nameWords, jsTrim, splitOnChar]
  · simp [generateInitials, toBoolean, typeOf, h0]

/-- C7 as stated fails: for the one-word name `"Jane"` the result is `"J"`, not
the first letter of the first word followed by the first letter of the last
word (`"JJ"`). -/
theorem generateInitials_single_word_one_letter :
    ¬ ∀ (s w : String) (ws : List String), nameWords s = w :: ws →
        generateInitials asciiUpper (.str s) =
          asciiUpper (charAt w 0 ++ charAt ((w :: ws).getLast (List.cons_ne_nil w ws)) 0) := by
  intro h
  have h1 := h "Jane" "Jane" [] (by decide)
  revert h1
  decide

/-- C7, amended: `generateInitials` returns `"??"` for a value that is not a
string, for the empty name and for a name with no words; for a name with
exactly one word it returns `toUpperCase` of that word's `charAt(0)` alone; for
a name with two or more words it returns `toUpperCase` of the first word's
`charAt(0)` followed by the last word's `charAt(0)`.  Every word is non-empty
and its `charAt(0)` is its first UTF-16 code unit;
`generateInitials("Jane Doe")` is `"JD"` and `generateInitials("")` is
`"??"`. -/
theorem generateInitials_cases (upper : List Nat → List Nat) (name : JSVal) :
    ((∀ s, name ≠ .str s) → generateInitials upper name = utf16 "??") ∧
    (∀ s, name = .str s → nameWords s = [] → generateInitials upper name = utf16 "??") ∧
    (∀ s w, name = .str s → nameWords s = [w] →
      generateInitials upper name = upper (charAt w 0)) ∧
    (∀ s w ws w', name = .str s → nameWords s = w :: (ws ++ [w']) →
      generateInitials upper name = upper (charAt w 0 ++ charAt w' 0)) ∧
    (∀ s, ∀ w ∈ nameWords s, 0 < w.length ∧
      ∃ u, charAt w 0 = [u] ∧ (utf16 w).head? = some u) ∧
    generateInitials upper (.str "") = utf16 "??" ∧
    generateInitials asciiUpper (.str "Jane Doe") = utf16 "JD" := by
  refine ⟨?_, ?_, ?_, ?_, ?_, ?_, ?_⟩
  · intro hns
    cases name <;> simp [generateInitials, toBoolean, typeOf]
    case str s => exact absurd rfl (hns s)
  · rintro s rfl hw
    rw [generateInitials_str, hw]; rfl
  · rintro s w rfl hw
    rw [generateInitials_str, hw]; rfl
  · rintro s w ws w' rfl hw
    rw [generateInitials_str, hw]
    have hlen : (w :: (ws ++ [w'])).length - 1 = (w :: ws).length := by simp
    rw [if_neg (by simp), if_neg (by simp), hlen]
    have : (w :: (ws ++ [w'])).getD (w :: ws).length "" = w' := by
      rw [← List.cons_append, List.getD_append_right _ _ _ _ (le_refl _)]
      simp
    rw [this]; rfl
  · intro s w hw
    simp only [nameWords, List.mem_filter] at hw
    have hlen : 0 < w.length := by simpa using hw.2
    exact ⟨hlen, charAt_zero w hlen⟩
  · rw [generateInitials_str]; rfl
  · decide

theorem generateInitials_cases_witness :
    generateInitials asciiUpper (.str "Mary Ann Lee") =
      asciiUpper (charAt "Mary" 0 ++ charAt "Lee" 0) :=
  (generateInitials_cases asciiUpper (.str "Mary Ann Lee")).2.2.2.1
    "Mary Ann Lee" "Mary" ["Ann"] "Lee" rfl (by decide)

/-! ## Properties of the registration form -/

namespace Regex

theorem nullable_iff (r : Regex) : r.nullable = true ↔ r.Matches [] := by
  induction r with
  | nothing => simp [nullable, Matches]
  | eps => simp [nullable, Matches]
  | cls p => simp [nullable, Matches]
  | alt r s ihr ihs => simp [nullable, Matches, ihr, ihs]
  | seq r s ihr ihs =>
    simp only [nullable, Matches, Bool.and_eq_true, ihr, ihs]
    constructor
    · rintro ⟨h1, h2⟩; exact ⟨[], [], rfl, h1, h2⟩
    · rintro ⟨u, v, huv, h1, h2⟩
      obtain ⟨rfl, rfl⟩ := List.append_eq_nil.1 huv.symm
      exact ⟨h1, h2⟩
  | star r _ => 
    simp only [nullable, Matches, true_iff]
    exact ⟨[], rfl, by simp⟩

theorem star_cons_iff (r : Regex) (c : Char) (w : List Char) :
    (star r).Matches (c :: w) ↔
      ∃ u v, w = u ++ v ∧ r.Matches (c :: u) ∧ (star r).Matches v := by
  constructor
  · rintro ⟨ws, hjoin, hall⟩
    induction ws with
    | nil => simp at hjoin
    | cons x xs ih =>
      cases x with
      | nil =>
        apply ih
        · simpa using hjoin
        · exact fun u hu => hall u (List.mem_cons_of_mem _ hu)
      | cons d u =>
        simp only [List.flatten_cons, List.cons_append, List.cons.injEq] at hjoin
        obtain ⟨rfl, rfl⟩ := hjoin
        exact ⟨u, xs.flatten, rfl, hall _ (List.mem_cons_self _ _),
          xs, rfl, fun u hu => hall u (List.mem_cons_of_mem _ hu)⟩
  · rintro ⟨u, v, rfl, hu, ws, rfl, hall⟩
    refine ⟨(c :: u) :: ws, by simp, ?_⟩
    intro x hx
    rcases List.mem_cons.1 hx with rfl | hx
    · exact hu
    · exact hall x hx

theorem deriv_iff (r : Regex) (c : Char) (w : List Char) :
    (r.deriv c).Matches w ↔ r.Matches (c :: w) := by
  induction r generalizing w with
  | nothing => simp [deriv, Matches]
  | eps => simp [deriv, Matches]
  | cls p =>
    by_cases hp : p c = true
    · simp only [deriv, hp, if_true, Matches]
      constructor
      · rintro rfl; exact ⟨c, hp, rfl⟩
      · rintro ⟨d, _, hd⟩
        simp only [List.cons.injEq] at hd
        exact hd.2
    · simp only [deriv, hp, Matches, false_iff]
      rintro ⟨d, hd, heq⟩
      simp only [List.cons.injEq] at heq
      obtain ⟨rfl, -⟩ := heq
      exact hp hd
  | alt r s ihr ihs => simp [deriv, Matches, ihr, ihs]
  | seq r s ihr ihs =>
    have key : (seq r s).Matches (c :: w) ↔
        (∃ u v, w = u ++ v ∧ r.Matches (c :: u) ∧ s.Matches v) ∨
          (r.Matches [] ∧ s.Matches (c :: w)) := by
      constructor
      · rintro ⟨u, v, huv, hu, hv⟩
        cases u with
        | nil => right; simp at huv; subst huv; exact ⟨hu, hv⟩
        | cons d u =>
          left
          simp only [List.cons_append, List.cons.injEq] at huv
          obtain ⟨rfl, rfl⟩ := huv
          exact ⟨u, v, rfl, hu, hv⟩
      · rintro (⟨u, v, rfl, hu, hv⟩ | ⟨hu, hv⟩)
        · exact ⟨c :: u, v, rfl, hu, hv⟩
        · exact ⟨[], c :: w, rfl, hu, hv⟩
    rw [key]
    by_cases hn : r.nullable = true
    · simp only [deriv, hn, if_true, Matches, ihr, ihs]
      rw [← nullable_iff, hn]; simp
    · simp only [deriv, hn, if_false, Matches, ihr]
      rw [← nullable_iff]; simp [hn]
  | star r ih =>
    rw [star_cons_iff]
    simp only [deriv]
    constructor
    · rintro ⟨u, v, rfl, hu, hv⟩
      exact ⟨u, v, rfl, (ih u).1 hu, hv⟩
    · rintro ⟨u, v, rfl, hu, hv⟩
      exact ⟨u, v, rfl, (ih u).2 hu, hv⟩

theorem foldl_deriv_iff (w : List Char) (r : Regex) :
    (w.foldl deriv r).nullable = true ↔ r.Matches w := by
  induction w generalizing r with
  | nil => exact nullable_iff r
  | cons c w ih => rw [List.foldl_cons, ih, deriv_iff]

theorem test_iff (r : Regex) (s : String) : r.test s = true ↔ r.Matches s.data :=
  foldl_deriv_iff s.data r

theorem star_cls_iff (p : Char → Bool) (w : List Char) :
    (star (cls p)).Matches w ↔ ∀ x ∈ w, p x = true := by
  constructor
  · rintro ⟨ws, rfl, hall⟩ x hx
    obtain ⟨u, hu, hxu⟩ := List.mem_flatten.1 hx
    obtain ⟨c, hc, rfl⟩ := hall u hu
    simp at hxu; subst hxu; exact hc
  · intro h
    refine ⟨w.map fun x => [x], ?_, ?_⟩
    · clear h
      induction w with
      | nil => rfl
      | cons x xs ih => simpa using ih
    · intro u hu
      obtain ⟨x, hx, rfl⟩ := List.mem_map.1 hu
      exact ⟨x, h x hx, rfl⟩

theorem plus_cls_iff (p : Char → Bool) (w : List Char) :
    (plus (cls p)).Matches w ↔ w ≠ [] ∧ ∀ x ∈ w, p x = true := by
  simp only [plus, Matches]
  constructor
  · rintro ⟨u, v, rfl, ⟨c, hc, rfl⟩, hv⟩
    refine ⟨by simp, ?_⟩
    intro x hx
    rcases List.mem_cons.1 hx with rfl | hx
    · exact hc
    · exact (star_cls_iff p v).1 hv x hx
  · rintro ⟨hne, hall⟩
    cases w with
    | nil => exact absurd rfl hne
    | cons c v =>
      exact ⟨[c], v, rfl, ⟨c, hall c (List.mem_cons_self _ _), rfl⟩,
        (star_cls_iff p v).2 fun x hx => hall x (List.mem_cons_of_mem _ hx)⟩

theorem two_or_three_iff (p : Char → Bool) (w : List Char) :
    (seq (cls p) (seq (cls p) (opt (cls p)))).Matches w ↔
      (w.length = 2 ∨ w.length = 3) ∧ ∀ x ∈ w, p x = true := by
  constructor
  · rintro ⟨_, _, rfl, ⟨x, hx, rfl⟩, _, _, rfl, ⟨y, hy, rfl⟩, hv | ⟨z, hz, rfl⟩⟩
    · simp only [Matches] at hv
      subst hv
      simp [hx, hy]
    · simp [hx, hy, hz]
  · rintro ⟨hlen, hall⟩
    match w, hlen, hall with
    | [x, y], _, hall =>
      exact ⟨[x], [y], rfl, ⟨x, hall x (by simp), rfl⟩, [y], [], rfl,
        ⟨y, hall y (by simp), rfl⟩, Or.inl rfl⟩
    | [x, y, z], _, hall =>
      exact ⟨[x], [y, z], rfl, ⟨x, hall x (by simp), rfl⟩, [y], [z], rfl,
        ⟨y, hall y (by simp), rfl⟩, Or.inr ⟨z, hall z (by simp), rfl⟩⟩
    | [], h, _ => simp at h
    | [_], h, _ => simp at h
    | _ :: _ :: _ :: _ :: _, h, _ => simp at h

end Regex

/-- The language of the e-mail pattern, in words. -/
theorem emailPattern_matches_iff (w : List Char) :
    emailPattern.Matches w ↔
      ∃ a b c : List Char, w = a ++ '@' :: (b ++ '.' :: c) ∧
        a ≠ [] ∧ (∀ x ∈ a, x ≠ ' ') ∧ b ≠ [] ∧ (∀ x ∈ b, x ≠ ' ') ∧
        (c.length = 2 ∨ c.length = 3) ∧ ∀ x ∈ c, 'a' ≤ x ∧ x ≤ 'z' := by
  simp only [emailPattern]
  constructor
  · rintro ⟨a, _, rfl, ha, _, _, rfl, ⟨c1, hc1, rfl⟩, b, _, rfl, hb, _, c, rfl,
      ⟨c2, hc2, rfl⟩, htail⟩
    obtain ⟨ha, ha'⟩ := (Regex.plus_cls_iff _ _).1 ha
    obtain ⟨hb, hb'⟩ := (Regex.plus_cls_iff _ _).1 hb
    obtain ⟨hlen, hc⟩ := (Regex.two_or_three_iff _ _).1 htail
    simp only [beq_iff_eq] at hc1 hc2
    subst hc1 hc2
    refine ⟨a, b, c, by simp, ha, ?_, hb, ?_, hlen, ?_⟩
    · intro x hx; simpa using ha' x hx
    · intro x hx; simpa using hb' x hx
    · intro x hx; simpa using hc x hx
  · rintro ⟨a, b, c, rfl, ha, ha', hb, hb', hlen, hc⟩
    refine ⟨a, _, rfl, (Regex.plus_cls_iff _ _).2 ⟨ha, ?_⟩, ['@'], _, rfl, ⟨'@', by simp, rfl⟩,
      b, _, rfl, (Regex.plus_cls_iff _ _).2 ⟨hb, ?_⟩,
      ['.'], c, rfl, ⟨'.', by simp, rfl⟩, (Regex.two_or_three_iff _ _).2 ⟨hlen, ?_⟩⟩
    · intro x hx; simpa using ha' x hx
    · intro x hx; simpa using hb' x hx
    · intro x hx; simpa using hc x hx

theorem strEmpty_iff (s : String) : strEmpty s = true ↔ s = "" := by
  simp [strEmpty, toBoolean, string_eq_empty_iff]

/-- The three exits of the submit handler. -/
theorem submitHandler_cases (defaults form : Form) :
    ((jsTrim form.name = "" ∨ jsTrim form.email = "" ∨ form.department = "" ∨ form.year = "" ∨
        jsTrim form.projectTitle = "") →
      submitHandler defaults form =
        { alert := "All fields must be filled!", didReset := false, form := form }) ∧
    (¬ (jsTrim form.name = "" ∨ jsTrim form.email = "" ∨ form.department = "" ∨ form.year = "" ∨
        jsTrim form.projectTitle = "") →
      emailPattern.test (jsTrim form.email) = false →
      submitHandler defaults form =
        { alert := "Invalid email format!", didReset := false, form := form }) ∧
    (¬ (jsTrim form.name = "" ∨ jsTrim form.email = "" ∨ form.department = "" ∨ form.year = "" ∨
        jsTrim form.projectTitle = "") →
      emailPattern.test (jsTrim form.email) = true →
      submitHandler defaults form =
        { alert := "Registration Successful", didReset := true, form := defaults }) := by
  have hempty : (strEmpty (jsTrim form.name) || strEmpty (jsTrim form.email) ||
      strEmpty form.department || strEmpty form.year || strEmpty (jsTrim form.projectTitle)) = true ↔
      (jsTrim form.name = "" ∨ jsTrim form.email = "" ∨ form.department = "" ∨ form.year = "" ∨
        jsTrim form.projectTitle = "") := by
    simp only [Bool.or_eq_true, strEmpty_iff, or_assoc]
  refine ⟨?_, ?_, ?_⟩
  · intro h
    simp only [submitHandler]
    rw [if_pos (hempty.2 h)]
  · intro h ht
    simp only [submitHandler]
    rw [if_neg (fun hc => h (hempty.1 hc)), if_pos (by simp [ht])]
  · intro h ht
    simp only [submitHandler]
    rw [if_neg (fun hc => h (hempty.1 hc)), if_neg (by simp [ht])]

/-- C8: the submit handler rejects (shows one of its two error alerts and does
not reset) if and only if one of the five fields is empty (name, e-mail and
project title after trimming, department and year as read) or the trimmed
e-mail is not of the form: one or more non-space characters, `@`, one or more
non-space characters, `.`, then two or three letters `a`..`z` up to the end.
A form whose e-mail is `abc@com` is rejected. -/
theorem submitHandler_rejects_iff (defaults form : Form) :
    ((((submitHandler defaults form).alert = "All fields must be filled!" ∨
        (submitHandler defaults form).alert = "Invalid email format!") ∧
        (submitHandler defaults form).didReset = false) ↔
      (jsTrim form.name = "" ∨ jsTrim form.email = "" ∨ form.department = "" ∨ form.year = "" ∨
        jsTrim form.projectTitle = "") ∨
      ¬ ∃ a b c : List Char, (jsTrim form.email).data = a ++ '@' :: (b ++ '.' :: c) ∧
        a ≠ [] ∧ (∀ x ∈ a, x ≠ ' ') ∧ b ≠ [] ∧ (∀ x ∈ b, x ≠ ' ') ∧
        (c.length = 2 ∨ c.length = 3) ∧ ∀ x ∈ c, 'a' ≤ x ∧ x ≤ 'z') ∧
    (jsTrim form.email = "abc@com" →
      ((submitHandler defaults form).alert = "All fields must be filled!" ∨
        (submitHandler defaults form).alert = "Invalid email format!") ∧
        (submitHandler defaults form).didReset = false) := by
  obtain ⟨h1, h2, h3⟩ := submitHandler_cases defaults form
  rw [← emailPattern_matches_iff, ← Regex.test_iff]
  have key : (((submitHandler defaults form).alert = "All fields must be filled!" ∨
        (submitHandler defaults form).alert = "Invalid email format!") ∧
        (submitHandler defaults form).didReset = false) ↔
      (jsTrim form.name = "" ∨ jsTrim form.email = "" ∨ form.department = "" ∨ form.year = "" ∨
        jsTrim form.projectTitle = "") ∨ ¬ emailPattern.test (jsTrim form.email) = true := by
    by_cases he : (jsTrim form.name = "" ∨ jsTrim form.email = "" ∨ form.department = "" ∨
        form.year = "" ∨ jsTrim form.projectTitle = "")
    · rw [h1 he]; simp [he]
    · by_cases ht : emailPattern.test (jsTrim form.email) = true
      · rw [h3 he ht]; simp [he, ht]
      · rw [h2 he (by simpa using ht)]; simp [ht]
  refine ⟨key, ?_⟩
  intro habc
  rw [key, habc]
  right
  decide

theorem submitHandler_rejects_iff_witness :
    ((submitHandler ⟨"", "", "", "", ""⟩ ⟨"Ann", " abc@com", "CSE", "2", "Robot"⟩).alert =
        "All fields must be filled!" ∨
      (submitHandler ⟨"", "", "", "", ""⟩ ⟨"Ann", " abc@com", "CSE", "2", "Robot"⟩).alert =
        "Invalid email format!") ∧
      (submitHandler ⟨"", "", "", "", ""⟩ ⟨"Ann", " abc@com", "CSE", "2", "Robot"⟩).didReset = false :=
  (submitHandler_rejects_iff ⟨"", "", "", "", ""⟩ ⟨"Ann", " abc@com", "CSE", "2", "Robot"⟩).2
    (by decide)

/-- C9: when all five fields are filled and the e-mail matches the pattern, the
submit handler alerts success and resets the form; in every other case it shows
an error alert, does not reset, and leaves the field values as they were; so
the form is reset exactly when validation passes. -/
theorem submitHandler_resets_iff (defaults form : Form) :
    ((jsTrim form.name ≠ "" ∧ jsTrim form.email ≠ "" ∧ form.department ≠ "" ∧ form.year ≠ "" ∧
        jsTrim form.projectTitle ≠ "" ∧ emailPattern.test (jsTrim form.email) = true) →
      submitHandler defaults form =
        { alert := "Registration Successful", didReset := true, form := defaults }) ∧
    (¬ (jsTrim form.name ≠ "" ∧ jsTrim form.email ≠ "" ∧ form.department ≠ "" ∧ form.year ≠ "" ∧
        jsTrim form.projectTitle ≠ "" ∧ emailPattern.test (jsTrim form.email) = true) →
      (submitHandler defaults form).alert ≠ "Registration Successful" ∧
      (submitHandler defaults form).didReset = false ∧
      (submitHandler defaults form).form = form) ∧
    ((submitHandler defaults form).alert ≠ "Registration Successful" →
      (submitHandler defaults form).didReset = false ∧
      (submitHandler defaults form).form = form) ∧
    ((submitHandler defaults form).didReset = true ↔
      (jsTrim form.name ≠ "" ∧ jsTrim form.email ≠ "" ∧ form.department ≠ "" ∧ form.year ≠ "" ∧
        jsTrim form.projectTitle ≠ "" ∧ emailPattern.test (jsTrim form.email) = true)) := by
  obtain ⟨h1, h2, h3⟩ := submitHandler_cases defaults form
  by_cases he : (jsTrim form.name = "" ∨ jsTrim form.email = "" ∨ form.department = "" ∨
      form.year = "" ∨ jsTrim form.projectTitle = "")
  · have hnv : ¬ (jsTrim form.name ≠ "" ∧ jsTrim form.email ≠ "" ∧ form.department ≠ "" ∧
        form.year ≠ "" ∧ jsTrim form.projectTitle ≠ "" ∧
        emailPattern.test (jsTrim form.email) = true) := by
      rintro ⟨a, b, c, d, e, -⟩
      rcases he with h | h | h | h | h
      exacts [a h, b h, c h, d h, e h]
    rw [h1 he]
    refine ⟨fun hv => absurd hv hnv, fun _ => ⟨by simp, rfl, rfl⟩, fun _ => ⟨rfl, rfl⟩, ?_⟩
    exact ⟨fun hc => by simp at hc, fun hv => absurd hv hnv⟩
  · have hne : jsTrim form.name ≠ "" ∧ jsTrim form.email ≠ "" ∧ form.department ≠ "" ∧
        form.year ≠ "" ∧ jsTrim form.projectTitle ≠ "" := by
      refine ⟨fun h => he ?_, fun h => he ?_, fun h => he ?_, fun h => he ?_, fun h => he ?_⟩
      · exact Or.inl h
      · exact Or.inr (Or.inl h)
      · exact Or.inr (Or.inr (Or.inl h))
      · exact Or.inr (Or.inr (Or.inr (Or.inl h)))
      · exact Or.inr (Or.inr (Or.inr (Or.inr h)))
    by_cases ht : emailPattern.test (jsTrim form.email) = true
    · have hv : jsTrim form.name ≠ "" ∧ jsTrim form.email ≠ "" ∧ form.department ≠ "" ∧
          form.year ≠ "" ∧ jsTrim form.projectTitle ≠ "" ∧
          emailPattern.test (jsTrim form.email) = true :=
        ⟨hne.1, hne.2.1, hne.2.2.1, hne.2.2.2.1, hne.2.2.2.2, ht⟩
      rw [h3 he ht]
      refine ⟨fun _ => rfl, fun hnv => absurd hv hnv, fun hx => absurd rfl hx, ?_⟩
      exact ⟨fun _ => hv, fun _ => rfl⟩
    · have hnv : ¬ (jsTrim form.name ≠ "" ∧ jsTrim form.email ≠ "" ∧ form.department ≠ "" ∧
          form.year ≠ "" ∧ jsTrim form.projectTitle ≠ "" ∧
          emailPattern.test (jsTrim form.email) = true) := fun hv => ht hv.2.2.2.2.2
      rw [h2 he (by simpa using ht)]
      refine ⟨fun hv => absurd hv hnv, fun _ => ⟨by simp, rfl, rfl⟩, fun _ => ⟨rfl, rfl⟩, ?_⟩
      exact ⟨fun hc => by simp at hc, fun hv => absurd hv hnv⟩

theorem submitHandler_resets_iff_witness :
    submitHandler ⟨"", "a@b.in", "", "1", ""⟩ ⟨"Ann ", "ann@kct.ac.in", "CSE", "2", "Robot"⟩ =
      { alert := "Registration Successful", didReset := true,
        form := ⟨"", "a@b.in", "", "1", ""⟩ } :=
  (submitHandler_resets_iff ⟨"", "a@b.in", "", "1", ""⟩
    ⟨"Ann ", "ann@kct.ac.in", "CSE", "2", "Robot"⟩).1 (by decide)

/-! ## Rounding to a double -/

theorem roundHalfEven_intCast (m : ℤ) : roundHalfEven (m : ℚ) = m := by
  simp [roundHalfEven]

/-- A positive value that is a whole number of units in the last place, below
the overflow threshold, is a double. -/
theorem roundDouble_of_units (q : ℚ) (hq : 0 < q) (m : ℤ)
    (hm : q = m * 2 ^ (max (Int.log 2 q) (-1022) - 52)) (hlt : q < 2 ^ (1024 : ℤ)) :
    roundDouble q = .fin q := by
  have hulp : (2 : ℚ) ^ (max (Int.log 2 q) (-1022) - 52) ≠ 0 := zpow_ne_zero _ (by norm_num)
  have hdiv : q / 2 ^ (max (Int.log 2 q) (-1022) - 52) = (m : ℚ) := by
    rw [div_eq_iff hulp]; exact hm
  simp only [roundDouble, if_neg (ne_of_gt hq), abs_of_pos hq, hdiv, roundHalfEven_intCast, ← hm,
    if_neg (not_le.mpr hlt), if_pos hq]

theorem log_two_nonneg (q : ℚ) (h1 : 1 ≤ q) : 0 ≤ Int.log 2 q := by
  have hq : 0 < q := lt_of_lt_of_le one_pos h1
  rw [← Int.zpow_le_iff_le_log (by decide) hq]
  simpa using h1

theorem log_two_lt (q : ℚ) (hq : 0 < q) (x : ℤ) (h : q < 2 ^ x) : Int.log 2 q < x := by
  rw [← Int.lt_zpow_iff_log_lt (by decide) hq]
  simpa using h

/-- Every integer from `0` to `2^53` is a double. -/
theorem roundDouble_int (k : ℤ) (h0 : 0 ≤ k) (hk : k ≤ 2 ^ 53) :
    roundDouble (k : ℚ) = .fin (k : ℚ) := by
  rcases eq_or_lt_of_le h0 with h | hpos
  · subst h; simp [roundDouble]
  have hq : (0 : ℚ) < k := by exact_mod_cast hpos
  have h1 : (1 : ℚ) ≤ k := by exact_mod_cast hpos
  have hkq : (k : ℚ) ≤ 2 ^ 53 := by exact_mod_cast hk
  have he0 := log_two_nonneg _ h1
  have he54 : Int.log 2 (k : ℚ) < 54 := log_two_lt _ hq 54 (lt_of_le_of_lt hkq (by norm_num))
  have hmax : max (Int.log 2 (k : ℚ)) (-1022) = Int.log 2 (k : ℚ) := max_eq_left (by omega)
  have hlt : (k : ℚ) < 2 ^ (1024 : ℤ) := lt_of_le_of_lt hkq (by norm_num)
  by_cases he : Int.log 2 (k : ℚ) ≤ 52
  · obtain ⟨j, hj⟩ : ∃ j : ℕ, (j : ℤ) = 52 - Int.log 2 (k : ℚ) :=
      ⟨(52 - Int.log 2 (k : ℚ)).toNat, by omega⟩
    refine roundDouble_of_units _ hq (k * 2 ^ j) ?_ hlt
    rw [hmax]
    have : Int.log 2 (k : ℚ) - 52 = -(j : ℤ) := by omega
    rw [this, zpow_neg, zpow_natCast]
    push_cast
    field_simp
  · have he53 : Int.log 2 (k : ℚ) = 53 := by omega
    have hle : (2 : ℚ) ^ (53 : ℕ) ≤ k := by
      have h2 : ((2 : ℕ) : ℚ) ^ Int.log 2 (k : ℚ) ≤ k := Int.zpow_log_le_self (by decide) hq
      rw [he53] at h2
      exact_mod_cast h2
    have hk53 : (k : ℚ) = 2 ^ 53 := le_antisymm hkq hle
    refine roundDouble_of_units _ hq (2 ^ 52) ?_ hlt
    rw [hmax, he53, hk53]
    norm_num

/-- The value `2^53 + 1` lies half-way between two doubles and rounds to `2^53`. -/
theorem roundDouble_two_pow_53_add_one :
    roundDouble (2 ^ 53 + 1) = .fin (2 ^ 53) := by
  have hq : (0 : ℚ) < 2 ^ 53 + 1 := by norm_num
  have h53 : Int.log 2 ((2 : ℚ) ^ 53 + 1) = 53 := by
    apply le_antisymm
    · have := log_two_lt ((2 : ℚ) ^ 53 + 1) hq 54 (by norm_num)
      omega
    · rw [← Int.zpow_le_iff_le_log (by decide) hq]
      norm_num
  have hfloor : ⌊((2 : ℚ) ^ 53 + 1) / 2⌋ = 2 ^ 52 := by
    rw [Int.floor_eq_iff]
    constructor <;> norm_num
  simp only [roundDouble, if_neg (ne_of_gt hq), abs_of_pos hq, h53]
  norm_num [roundHalfEven, hfloor]

/-! ## Properties of factorial -/

/-- The increment `i++` of an integer counter between `0` and `2^53`: it stays
in that range. -/
theorem increment_stays (k : ℤ) (h0 : 0 ≤ k) (hk : k ≤ 2 ^ 53) :
    ∃ k' : ℤ, JSNum.add (.fin k) (.fin 1) = .fin k' ∧ 0 ≤ k' ∧ k' ≤ 2 ^ 53 := by
  rcases eq_or_lt_of_le hk with h | hlt
  · refine ⟨2 ^ 53, ?_, by norm_num, le_refl _⟩
    subst h
    show roundDouble (((2 ^ 53 : ℤ) : ℚ) + 1) = _
    push_cast
    exact roundDouble_two_pow_53_add_one
  · refine ⟨k + 1, ?_, by omega, by omega⟩
    show roundDouble ((k : ℚ) + 1) = _
    have := roundDouble_int (k + 1) (by omega) (by omega)
    push_cast at this ⊢
    exact this

theorem increment_exact (k : ℤ) (h0 : 0 ≤ k) (hk : k < 2 ^ 53) :
    JSNum.add (.fin k) (.fin 1) = .fin ((k + 1 : ℤ) : ℚ) := by
  show roundDouble ((k : ℚ) + 1) = _
  have := roundDouble_int (k + 1) (by omega) (by omega)
  push_cast at this ⊢
  exact this

/-- With `n >= 2^53` the loop never exits: the counter cannot pass `2^53`. -/
theorem factorialLoop_never_exits (n : ℚ) (hn : 2 ^ 53 ≤ n) (fuel : Nat) :
    ∀ (k : ℤ) (result : JSNum), 0 ≤ k → k ≤ 2 ^ 53 →
      factorialLoop fuel (.fin n) (.fin k) result = none := by
  induction fuel with
  | zero => intro k result _ _; rfl
  | succ fuel ih =>
    intro k result h0 hk
    have hle : JSNum.le (.fin (k : ℚ)) (.fin n) = true := by
      have : (k : ℚ) ≤ 2 ^ 53 := by exact_mod_cast hk
      simp [JSNum.le, le_trans this hn]
    obtain ⟨k', hadd, h0', hk'⟩ := increment_stays k h0 hk
    rw [factorialLoop, if_pos hle, hadd]
    exact ih k' _ h0' hk'

theorem factorialLoop_mono (fuel : Nat) :
    ∀ (n i result x : JSNum), factorialLoop fuel n i result = some x →
      ∀ extra, factorialLoop (fuel + extra) n i result = some x := by
  induction fuel with
  | zero => intro n i result x h; cases h
  | succ fuel ih =>
    intro n i result x h extra
    rw [Nat.add_right_comm]
    rw [factorialLoop] at h ⊢
    split at h
    · rename_i hle
      rw [if_pos hle]
      exact ih _ _ _ _ h extra
    · rename_i hle
      rw [if_neg hle]
      exact h

/-- Running the loop up to `n` is running it up to `n - 1` and then multiplying
by `n`, as long as the counter does not reach `2^53`. -/
theorem factorialLoop_succ (d : Nat) :
    ∀ (n i : ℤ) (result : JSNum), 0 ≤ i → i ≤ n → n < 2 ^ 53 → n - i = d →
      ∃ x, factorialLoop (d + 1) (.fin ((n - 1 : ℤ) : ℚ)) (.fin i) result = some x ∧
        factorialLoop (d + 2) (.fin n) (.fin i) result =
          some (JSNum.round (JSNum.mul x (.fin n))) := by
  induction d with
  | zero =>
    intro n i result h0 hin hn hd
    have hi : i = n := by omega
    subst hi
    refine ⟨result, ?_, ?_⟩
    · have hle : JSNum.le (.fin (i : ℚ)) (.fin ((i - 1 : ℤ) : ℚ)) = false := by
        simp [JSNum.le]
      rw [factorialLoop, hle]; rfl
    · have hle : JSNum.le (.fin (i : ℚ)) (.fin (i : ℚ)) = true := by simp [JSNum.le]
      have hle2 : JSNum.le (.fin ((i + 1 : ℤ) : ℚ)) (.fin (i : ℚ)) = false := by
        simp [JSNum.le]
      rw [factorialLoop, if_pos hle, increment_exact i h0 hn, factorialLoop, hle2]; rfl
  | succ d ih =>
    intro n i result h0 hin hn hd
    have hlt : i < n := by omega
    have hle1 : JSNum.le (.fin (i : ℚ)) (.fin ((n - 1 : ℤ) : ℚ)) = true := by
      have : i ≤ n - 1 := by omega
      have h2 : (i : ℚ) ≤ ((n - 1 : ℤ) : ℚ) := by exact_mod_cast this
      simp only [JSNum.le, decide_eq_true_eq]; exact h2
    have hle2 : JSNum.le (.fin (i : ℚ)) (.fin (n : ℚ)) = true := by
      have h2 : (i : ℚ) ≤ (n : ℚ) := by exact_mod_cast hin
      simp only [JSNum.le, decide_eq_true_eq]; exact h2
    obtain ⟨x, hx1, hx2⟩ := ih n (i + 1) (JSNum.round (JSNum.mul result (.fin i)))
      (by omega) (by omega) hn (by omega)
    refine ⟨x, ?_, ?_⟩
    · rw [factorialLoop, if_pos hle1, increment_exact i h0 (by omega)]; exact hx1
    · rw [factorialLoop, if_pos hle2, increment_exact i h0 (by omega)]; exact hx2

theorem asInteger_int (n : Int) : asInteger (.num (.fin n)) = some n := by
  simp [asInteger]

theorem factorial_of_gt_one (fuel : Nat) (n : Int) (h : 1 < n) :
    factorial fuel (.num (.fin n)) =
      (factorialLoop fuel (.fin n) (.fin 2) (.fin 1)).map fun result => .ok (.num result) := by
  simp only [factorial, asInteger_int]
  rw [if_neg (by omega), if_neg (by omega)]

theorem factorial_never_returns (n : Int) (hn : 2 ^ 53 ≤ n) (fuel : Nat) :
    factorial fuel (.num (.fin n)) = none := by
  rw [factorial_of_gt_one fuel n (by omega)]
  have hq : (2 : ℚ) ^ 53 ≤ n := by exact_mod_cast hn
  have := factorialLoop_never_exits n hq fuel 2 (.fin 1) (by norm_num) (by norm_num)
  simp only [Int.cast_ofNat] at this
  rw [this]; rfl

theorem factorialLoop_returns (n : ℤ) (h2 : 2 ≤ n) (hn : n < 2 ^ 53) :
    ∃ x, factorialLoop ((n - 2).toNat + 1) (.fin ((n - 1 : ℤ) : ℚ)) (.fin 2) (.fin 1) = some x ∧
      factorialLoop ((n - 2).toNat + 2) (.fin n) (.fin 2) (.fin 1) =
        some (JSNum.round (JSNum.mul x (.fin n))) := by
  have := factorialLoop_succ (n - 2).toNat n 2 (.fin 1) (by norm_num) h2 hn (by omega)
  simpa using this

/-- C10: for every integer `n` with `1 < n < 2^53`, `factorial(n)` and
`factorial(n-1)` both return (given enough iterations) and `factorial(n)` is
the double product `factorial(n-1) * n`; `factorial(0)` and `factorial(1)` are
`1`; but `factorial(2^53)` never returns, however many iterations are run. -/
theorem factorial_recurrence_breaks_at_two_pow_53 :
    (∀ n : ℤ, 1 < n → n < 2 ^ 53 → ∃ (N : Nat) (a b : JSNum), ∀ fuel, N ≤ fuel →
      factorial fuel (.num (.fin n)) = some (.ok (.num a)) ∧
      factorial fuel (.num (.fin ((n - 1 : ℤ) : ℚ))) = some (.ok (.num b)) ∧
      a = JSNum.round (JSNum.mul b (.fin n))) ∧
    (∀ fuel, factorial fuel (.num (.fin 0)) = some (.ok (.num (.fin 1))) ∧
      factorial fuel (.num (.fin 1)) = some (.ok (.num (.fin 1)))) ∧
    (∀ fuel, factorial fuel (.num (.fin ((2 ^ 53 : ℤ) : ℚ))) = none) := by
  refine ⟨?_, ?_, ?_⟩
  · intro n h1 hn
    obtain ⟨x, hx1, hx2⟩ := factorialLoop_returns n (by omega) hn
    refine ⟨(n - 2).toNat + 2, JSNum.round (JSNum.mul x (.fin n)), x, ?_⟩
    intro fuel hfuel
    obtain ⟨extra, rfl⟩ := Nat.exists_eq_add_of_le hfuel
    refine ⟨?_, ?_, rfl⟩
    · rw [factorial_of_gt_one _ n h1, factorialLoop_mono _ _ _ _ _ hx2 extra]; rfl
    · by_cases hn2 : n = 2
      · subst hn2
        have hx : x = .fin 1 := by
          have h := hx1
          simp [factorialLoop, JSNum.le] at h
          exact h.symm
        subst hx
        simp [factorial, asInteger]
      · rw [factorial_of_gt_one _ (n - 1) (by omega)]
        have := factorialLoop_mono _ _ _ _ _ hx1 (extra + 1)
        rw [show (n - 2).toNat + 1 + (extra + 1) = (n - 2).toNat + 2 + extra by omega] at this
        rw [this]; rfl
  · intro fuel
    constructor <;> simp [factorial, asInteger]
  · intro fuel
    exact factorial_never_returns _ (le_refl _) fuel

theorem factorial_recurrence_breaks_at_two_pow_53_witness :
    ∃ (N : Nat) (a b : JSNum), ∀ fuel, N ≤ fuel →
      factorial fuel (.num (.fin ((5 : ℤ) : ℚ))) = some (.ok (.num a)) ∧
      factorial fuel (.num (.fin (((5 : ℤ) - 1 : ℤ) : ℚ))) = some (.ok (.num b)) ∧
      a = JSNum.round (JSNum.mul b (.fin ((5 : ℤ) : ℚ))) :=
  factorial_recurrence_breaks_at_two_pow_53.1 5 (by decide) (by decide)

/-- C11: `factorial` raises an error for every value that is not a number, for
every number that is not an integer (a fraction, `NaN`, an infinity) and for
every negative number, and returns a number (given enough iterations) for every
integer `n` with `0 <= n < 2^53`; but for every integer `n >= 2^53` the loop
never exits: the call has not returned after any number of iterations. -/
theorem factorial_domain_and_limit :
    (∀ (fuel : Nat) (v : JSVal), typeOf v ≠ .number →
      factorial fuel v = some (.error "Parameter must be a non-negative integer")) ∧
    (∀ (fuel : Nat) (q : ℚ), q.den ≠ 1 →
      factorial fuel (.num (.fin q)) =
        some (.error "Parameter must be a non-negative integer")) ∧
    (∀ fuel : Nat,
      factorial fuel (.num .nan) = some (.error "Parameter must be a non-negative integer") ∧
      factorial fuel (.num .posInf) =
        some (.error "Parameter must be a non-negative integer") ∧
      factorial fuel (.num .negInf) =
        some (.error "Parameter must be a non-negative integer")) ∧
    (∀ (fuel : Nat) (q : ℚ), q < 0 →
      factorial fuel (.num (.fin q)) =
        some (.error "Parameter must be a non-negative integer")) ∧
    (∀ n : ℤ, 0 ≤ n → n < 2 ^ 53 → ∃ (N : Nat) (r : JSNum), ∀ fuel, N ≤ fuel →
      factorial fuel (.num (.fin n)) = some (.ok (.num r))) ∧
    (∀ n : ℤ, 2 ^ 53 ≤ n → ∀ fuel, factorial fuel (.num (.fin n)) = none) := by
  refine ⟨?_, ?_, ?_, ?_, ?_, ?_⟩
  · intro fuel v hv
    cases v <;> simp [typeOf] at hv <;> simp [factorial, asInteger]
  · intro fuel q hq
    simp [factorial, asInteger, hq]
  · intro fuel
    refine ⟨?_, ?_, ?_⟩ <;> simp [factorial, asInteger]
  · intro fuel q hq
    by_cases hd : q.den = 1
    · have hnum : q.num < 0 := Rat.num_neg.mpr hq
      simp [factorial, asInteger, hd, hnum]
    · simp [factorial, asInteger, hd]
  · intro n h0 hn
    by_cases h01 : n = 0 ∨ n = 1
    · refine ⟨0, .fin 1, fun fuel _ => ?_⟩
      simp only [factorial, asInteger_int]
      rw [if_neg (by omega), if_pos h01]
    · obtain ⟨x, -, hx2⟩ := factorialLoop_returns n (by omega) hn
      refine ⟨(n - 2).toNat + 2, JSNum.round (JSNum.mul x (.fin n)), fun fuel hfuel => ?_⟩
      obtain ⟨extra, rfl⟩ := Nat.exists_eq_add_of_le hfuel
      rw [factorial_of_gt_one _ n (by omega), factorialLoop_mono _ _ _ _ _ hx2 extra]; rfl
  · intro n hn fuel
    exact factorial_never_returns n hn fuel

theorem factorial_domain_and_limit_witness :
    factorial 1000000 (.num (.fin ((9007199254740992 : ℤ) : ℚ))) = none :=
  factorial_domain_and_limit.2.2.2.2.2 9007199254740992 (by decide) 1000000

/-! ## Properties of the math utilities -/

theorem numberOf_eq_none (v : JSVal) (h : typeOf v ≠ .number) : numberOf v = none := by
  cases v <;> simp [typeOf] at h <;> rfl

theorem numberOf_eq_some (v : JSVal) (h : typeOf v = .number) : ∃ n, v = .num n := by
  cases v <;> simp [typeOf] at h
  exact ⟨_, rfl⟩

/-- C12: for every number `a`, `divide(a, 0)` raises an error; for every number
`a` and every number `b` other than zero, `divide(a, b)` returns `a / b`, which
for finite `a` and `b` is the quotient of the two values. -/
theorem divide_by_zero_fails_else_quotient :
    (∀ a : JSNum, MathUtils.divide (.num a) (.num (.fin 0)) =
      .error "Division by zero is not allowed") ∧
    (∀ a b : JSNum, b ≠ .fin 0 →
      MathUtils.divide (.num a) (.num b) = .ok (.num (JSNum.div a b))) ∧
    (∀ p q : ℚ, q ≠ 0 →
      MathUtils.divide (.num (.fin p)) (.num (.fin q)) = .ok (.num (.fin (p / q)))) := by
  refine ⟨?_, ?_, ?_⟩
  · intro a
    simp [MathUtils.divide, numberOf, JSNum.strictEq]
  · intro a b hb
    cases b with
    | fin q =>
      have hq : q ≠ 0 := fun h => hb (by rw [h])
      simp [MathUtils.divide, numberOf, JSNum.strictEq, hq]
    | nan => simp [MathUtils.divide, numberOf, JSNum.strictEq]
    | posInf => simp [MathUtils.divide, numberOf, JSNum.strictEq]
    | negInf => simp [MathUtils.divide, numberOf, JSNum.strictEq]
  · intro p q hq
    simp [MathUtils.divide, numberOf, JSNum.strictEq, JSNum.div, hq]

theorem divide_by_zero_fails_else_quotient_witness :
    MathUtils.divide (.num (.fin 7)) (.num (.fin 2)) = .ok (.num (.fin (7 / 2))) :=
  divide_by_zero_fails_else_quotient.2.2 7 2 (by norm_num)

/-- C13: for every negative number `x` (a negative finite value or
`-Infinity`), `sqrt(x)` raises an error; for every number `x >= 0`, `sqrt(x)`
returns `Math.sqrt(x)`. -/
theorem sqrt_fails_iff_negative (mathSqrt : JSNum → JSNum) (x : JSNum) :
    (JSNum.lt x (.fin 0) = true →
      MathUtils.sqrt mathSqrt (.num x) =
        .error "Cannot calculate square root of negative number") ∧
    (JSNum.le (.fin 0) x = true →
      MathUtils.sqrt mathSqrt (.num x) = .ok (.num (mathSqrt x))) ∧
    (∀ q : ℚ, x = .fin q → q < 0 → ∃ e, MathUtils.sqrt mathSqrt (.num x) = .error e) ∧
    (∀ q : ℚ, x = .fin q → 0 ≤ q → ∃ r, MathUtils.sqrt mathSqrt (.num x) = .ok r) := by
  refine ⟨?_, ?_, ?_, ?_⟩
  · intro h
    simp [MathUtils.sqrt, numberOf, h]
  · intro h
    have hlt : JSNum.lt x (.fin 0) = false := by
      cases x <;> simp [JSNum.le, JSNum.lt] at h ⊢
      exact h
    simp [MathUtils.sqrt, numberOf, hlt]
  · rintro q rfl hq
    exact ⟨"Cannot calculate square root of negative number",
      by simp [MathUtils.sqrt, numberOf, JSNum.lt, hq]⟩
  · rintro q rfl hq
    exact ⟨.num (mathSqrt (.fin q)),
      by simp [MathUtils.sqrt, numberOf, JSNum.lt, not_lt.mpr hq]⟩

theorem sqrt_fails_iff_negative_witness :
    MathUtils.sqrt (fun n => n) (.num (.fin (-4))) =
      .error "Cannot calculate square root of negative number" :=
  (sqrt_fails_iff_negative (fun n => n) (.fin (-4))).1 (by decide)

/-- C14 as stated fails: `add(1, Infinity)` is `Infinity`, and
`Infinity - Infinity` is `NaN`, not `1`. -/
theorem add_then_subtract_infinity :
    ¬ ∀ a b : JSNum, ∃ s : JSNum,
        MathUtils.add (.num a) (.num b) = .ok (.num s) ∧ JSNum.sub s b = a := by
  intro h
  obtain ⟨s, hs, hsub⟩ := h (.fin 1) .posInf
  simp only [MathUtils.add, numberOf, JSNum.add, Except.ok.injEq, JSVal.num.injEq] at hs
  subst hs
  simp [JSNum.sub, JSNum.neg, JSNum.add] at hsub

/-- C14, amended: for every pair of numbers `add(a, b)` returns the double sum
`a + b`; when `a` and `b` are finite, `a` is a double and the sum `a + b` is
exact (itself a double), `add(a, b) - b` is `a`; when `b` is finite and `a` is
an infinity it is `a` as well.  A rounded sum breaks it:
`add(2^53, 1) - 1` is `2^53 - 1`. -/
theorem add_succeeds_and_inverse_when_exact :
    (∀ a b : JSNum, MathUtils.add (.num a) (.num b) = .ok (.num (JSNum.add a b))) ∧
    (∀ p q : ℚ, roundDouble p = .fin p → roundDouble (p + q) = .fin (p + q) →
      ∃ s : JSNum, MathUtils.add (.num (.fin p)) (.num (.fin q)) = .ok (.num s) ∧
        JSNum.sub s (.fin q) = .fin p) ∧
    (∀ q : ℚ, JSNum.sub (JSNum.add .posInf (.fin q)) (.fin q) = .posInf ∧
      JSNum.sub (JSNum.add .negInf (.fin q)) (.fin q) = .negInf) ∧
    (∃ s : JSNum, MathUtils.add (.num (.fin (2 ^ 53))) (.num (.fin 1)) = .ok (.num s) ∧
      JSNum.sub s (.fin 1) = .fin (2 ^ 53 - 1)) := by
  refine ⟨?_, ?_, ?_, ?_⟩
  · intro a b; rfl
  · intro p q hp hpq
    refine ⟨.fin (p + q), ?_, ?_⟩
    · show Except.ok (JSVal.num (roundDouble (p + q))) = _
      rw [hpq]
    · show roundDouble (p + q + -q) = _
      rw [add_neg_cancel_right, hp]
  · intro q
    exact ⟨rfl, rfl⟩
  · refine ⟨.fin (2 ^ 53), ?_, ?_⟩
    · show Except.ok (JSVal.num (roundDouble (2 ^ 53 + 1))) = _
      rw [roundDouble_two_pow_53_add_one]
    · show roundDouble (2 ^ 53 + -1) = _
      have := roundDouble_int (2 ^ 53 - 1) (by norm_num) (by norm_num)
      rw [← sub_eq_add_neg]
      norm_num at this ⊢
      exact this

theorem add_succeeds_and_inverse_when_exact_witness :
    ∃ s : JSNum, MathUtils.add (.num (.fin 15)) (.num (.fin 25)) = .ok (.num s) ∧
      JSNum.sub s (.fin 25) = .fin 15 :=
  add_succeeds_and_inverse_when_exact.2.1 15 25
    (by have := roundDouble_int 15 (by norm_num) (by norm_num); push_cast at this; exact this)
    (by
      have := roundDouble_int 40 (by norm_num) (by norm_num)
      push_cast at this
      norm_num
      exact this)

theorem jsnum_mul_comm (a b : JSNum) : JSNum.mul a b = JSNum.mul b a := by
  cases a <;> cases b <;> simp [JSNum.mul, mul_comm]

/-- C15: for every pair of numbers `a` and `b`, `multiply(a, b)` and
`multiply(b, a)` both return a number and the two results are the same value;
when either argument is not a number, both orders raise an error. -/
theorem multiply_comm :
    (∀ a b : JSNum, ∃ r : JSNum,
      MathUtils.multiply (.num a) (.num b) = .ok (.num r) ∧
      MathUtils.multiply (.num b) (.num a) = .ok (.num r)) ∧
    (∀ x y : JSVal, typeOf x ≠ .number ∨ typeOf y ≠ .number →
      MathUtils.multiply x y = .error "Both parameters must be numbers" ∧
      MathUtils.multiply y x = .error "Both parameters must be numbers") := by
  constructor
  · intro a b
    refine ⟨JSNum.mul a b, rfl, ?_⟩
    simp [MathUtils.multiply, numberOf, jsnum_mul_comm b a]
  · intro x y h
    rcases h with h | h
    · have hx := numberOf_eq_none x h
      constructor
      · simp [MathUtils.multiply, hx]
      · cases hy : numberOf y <;> simp [MathUtils.multiply, hx, hy]
    · have hy := numberOf_eq_none y h
      constructor
      · cases hx : numberOf x <;> simp [MathUtils.multiply, hx, hy]
      · simp [MathUtils.multiply, hy]

theorem multiply_comm_witness :
    MathUtils.multiply (.str "8") (.num (.fin 7)) = .error "Both parameters must be numbers" ∧
    MathUtils.multiply (.num (.fin 7)) (.str "8") = .error "Both parameters must be numbers" :=
  multiply_comm.2 (.str "8") (.num (.fin 7)) (Or.inl (by decide))

theorem all_number_false (items : List JSVal) (x : JSVal) (hx : x ∈ items)
    (hn : typeOf x ≠ .number) : items.all (fun n => typeOf n == .number) = false := by
  rw [Bool.eq_false_iff]
  intro h
  rw [List.all_eq_true] at h
  exact hn (by simpa using h x hx)

theorem all_number_true (items : List JSVal) (h : ∀ x ∈ items, typeOf x = .number) :
    items.all (fun n => typeOf n == .number) = true := by
  rw [List.all_eq_true]
  intro x hx
  simpa using h x hx

theorem length_ne_zero_of_ne_nil {α : Type} (l : List α) (h : l ≠ []) : ¬ l.length = 0 :=
  fun h0 => h (List.length_eq_zero.mp h0)

theorem filterMap_numberOf_length (items : List JSVal)
    (h : ∀ x ∈ items, typeOf x = .number) : (items.filterMap numberOf).length = items.length := by
  induction items with
  | nil => rfl
  | cons x xs ih =>
    have hx := h x (List.mem_cons_self _ _)
    have ih' := ih fun y hy => h y (List.mem_cons_of_mem _ hy)
    cases x <;> simp [typeOf] at hx
    simp [List.filterMap_cons, numberOf, ih']

theorem max_of_all_numbers (maxArgs : Nat) (items : List JSVal) (hne : items ≠ [])
    (hall : ∀ x ∈ items, typeOf x = .number) :
    MathUtils.max maxArgs (.arr items) =
      if items.length > maxArgs then .error "RangeError: Maximum call stack size exceeded"
      else .ok (.num (mathMax (items.filterMap numberOf))) := by
  have hlen : ¬ items.length = 0 := length_ne_zero_of_ne_nil items hne
  have hall' := all_number_true items hall
  simp only [MathUtils.max, hlen, hall', if_false, Bool.not_true, Bool.false_eq_true,
    spreadCall, filterMap_numberOf_length items hall]
  by_cases hlong : items.length > maxArgs
  · simp only [hlong, if_true]
  · simp only [hlong, if_false]

theorem min_of_all_numbers (maxArgs : Nat) (items : List JSVal) (hne : items ≠ [])
    (hall : ∀ x ∈ items, typeOf x = .number) :
    MathUtils.min maxArgs (.arr items) =
      if items.length > maxArgs then .error "RangeError: Maximum call stack size exceeded"
      else .ok (.num (mathMin (items.filterMap numberOf))) := by
  have hlen : ¬ items.length = 0 := length_ne_zero_of_ne_nil items hne
  have hall' := all_number_true items hall
  simp only [MathUtils.min, hlen, hall', if_false, Bool.not_true, Bool.false_eq_true,
    spreadCall, filterMap_numberOf_length items hall]
  by_cases hlong : items.length > maxArgs
  · simp only [hlong, if_true]
  · simp only [hlong, if_false]

/-- C16: each of `max`, `min` and `average` raises an error when its argument
is not an array, is the empty array, or has an element that is not a number;
for a non-empty array of numbers `average` returns a number, and `max` and
`min` return a number when the array has at most as many elements as the
engine accepts as call arguments, but throw a `RangeError` when it has more. -/
theorem aggregates_on_arrays (maxArgs : Nat) :
    (∀ v : JSVal, isArray v = false →
      MathUtils.max maxArgs v = .error "Parameter must be a non-empty array" ∧
      MathUtils.min maxArgs v = .error "Parameter must be a non-empty array" ∧
      MathUtils.average v = .error "Parameter must be a non-empty array") ∧
    (MathUtils.max maxArgs (.arr []) = .error "Parameter must be a non-empty array" ∧
      MathUtils.min maxArgs (.arr []) = .error "Parameter must be a non-empty array" ∧
      MathUtils.average (.arr []) = .error "Parameter must be a non-empty array") ∧
    (∀ (items : List JSVal) (x : JSVal), x ∈ items → typeOf x ≠ .number →
      MathUtils.max maxArgs (.arr items) = .error "All array elements must be numbers" ∧
      MathUtils.min maxArgs (.arr items) = .error "All array elements must be numbers" ∧
      MathUtils.average (.arr items) = .error "All array elements must be numbers") ∧
    (∀ items : List JSVal, items ≠ [] → (∀ x ∈ items, typeOf x = .number) →
      ∃ r, MathUtils.average (.arr items) = .ok (.num r)) ∧
    (∀ items : List JSVal, items ≠ [] → (∀ x ∈ items, typeOf x = .number) →
      items.length ≤ maxArgs →
      (∃ r, MathUtils.max maxArgs (.arr items) = .ok (.num r)) ∧
      (∃ r, MathUtils.min maxArgs (.arr items) = .ok (.num r))) ∧
    (∀ items : List JSVal, (∀ x ∈ items, typeOf x = .number) → maxArgs < items.length →
      MathUtils.max maxArgs (.arr items) =
        .error "RangeError: Maximum call stack size exceeded" ∧
      MathUtils.min maxArgs (.arr items) =
        .error "RangeError: Maximum call stack size exceeded") := by
  refine ⟨?_, ?_, ?_, ?_, ?_, ?_⟩
  · intro v hv
    cases v <;> simp [isArray] at hv <;>
      exact ⟨rfl, rfl, rfl⟩
  · exact ⟨rfl, rfl, rfl⟩
  · intro items x hx hn
    have hne : ¬ items.length = 0 := length_ne_zero_of_ne_nil items (List.ne_nil_of_mem hx)
    have hall := all_number_false items x hx hn
    simp only [MathUtils.max, MathUtils.min, MathUtils.average, hne, hall, if_false,
      Bool.not_false, if_true, and_self]
  · intro items hne hall
    have hlen : ¬ items.length = 0 := length_ne_zero_of_ne_nil items hne
    have hall := all_number_true items hall
    simp only [MathUtils.average, hlen, hall, if_false, Bool.not_true]
    exact ⟨_, rfl⟩
  · intro items hne hall hle
    rw [max_of_all_numbers maxArgs items hne hall, min_of_all_numbers maxArgs items hne hall,
      if_neg (not_lt.mpr hle), if_neg (not_lt.mpr hle)]
    exact ⟨⟨_, rfl⟩, ⟨_, rfl⟩⟩
  · intro items hall hlong
    have hne : items ≠ [] := by
      intro h; rw [h] at hlong; exact Nat.not_lt_zero _ hlong
    rw [max_of_all_numbers maxArgs items hne hall, min_of_all_numbers maxArgs items hne hall,
      if_pos hlong, if_pos hlong]
    exact ⟨rfl, rfl⟩

theorem aggregates_on_arrays_witness :
    MathUtils.max 125000 (.arr (List.replicate 200000 (.num (.fin 1)))) =
        .error "RangeError: Maximum call stack size exceeded" ∧
      MathUtils.min 125000 (.arr (List.replicate 200000 (.num (.fin 1)))) =
        .error "RangeError: Maximum call stack size exceeded" :=
  (aggregates_on_arrays 125000).2.2.2.2.2 (List.replicate 200000 (.num (.fin 1)))
    (by intro x hx; rw [List.eq_of_mem_replicate hx]; rfl)
    (by rw [List.length_replicate]; decide)

theorem jsnum_le_refl (a : JSNum) (ha : a ≠ .nan) : JSNum.le a a = true := by
  cases a <;> simp_all [JSNum.le]

theorem jsnum_le_trans (a b c : JSNum) (hab : JSNum.le a b = true) (hbc : JSNum.le b c = true) :
    JSNum.le a c = true := by
  cases a <;> cases b <;> cases c <;> simp_all [JSNum.le]
  exact le_trans hab hbc

theorem jsnum_le_of_lt (a b : JSNum) (h : JSNum.lt a b = true) : JSNum.le a b = true := by
  cases a <;> cases b <;> simp_all [JSNum.le, JSNum.lt]
  exact le_of_lt h

theorem jsnum_le_of_not_lt (a b : JSNum) (ha : a ≠ .nan) (hb : b ≠ .nan)
    (h : JSNum.lt a b = false) : JSNum.le b a = true := by
  cases a <;> cases b <;> simp_all [JSNum.le, JSNum.lt]

theorem jsnum_le_negInf (a : JSNum) (h : JSNum.le a .negInf = true) : a = .negInf := by
  cases a <;> simp_all [JSNum.le]

theorem jsnum_posInf_le (a : JSNum) (h : JSNum.le .posInf a = true) : a = .posInf := by
  cases a <;> simp_all [JSNum.le]

/-- The `Math.max` fold returns its start value or an argument, and bounds both. -/
theorem foldl_max_spec (ns : List JSNum) (hi : JSNum) (hhi : hi ≠ .nan)
    (hns : ∀ n ∈ ns, n ≠ .nan) :
    (ns.foldl (fun highest n => if JSNum.lt highest n then n else highest) hi = hi ∨
      ns.foldl (fun highest n => if JSNum.lt highest n then n else highest) hi ∈ ns) ∧
    JSNum.le hi (ns.foldl (fun highest n => if JSNum.lt highest n then n else highest) hi)
      = true ∧
    ∀ x ∈ ns,
      JSNum.le x (ns.foldl (fun highest n => if JSNum.lt highest n then n else highest) hi)
        = true := by
  induction ns generalizing hi with
  | nil => exact ⟨Or.inl rfl, jsnum_le_refl hi hhi, fun x hx => by cases hx⟩
  | cons n ns ih =>
    have hn : n ≠ .nan := hns n (List.mem_cons_self _ _)
    have hns' : ∀ m ∈ ns, m ≠ .nan := fun m hm => hns m (List.mem_cons_of_mem _ hm)
    simp only [List.foldl_cons]
    by_cases hlt : JSNum.lt hi n = true
    · simp only [hlt, if_true]
      obtain ⟨h1, h2, h3⟩ := ih n hn hns'
      refine ⟨Or.inr ?_, jsnum_le_trans _ _ _ (jsnum_le_of_lt _ _ hlt) h2, ?_⟩
      · rcases h1 with h1 | h1
        · rw [h1]; exact List.mem_cons_self _ _
        · exact List.mem_cons_of_mem _ h1
      · intro x hx
        rcases List.mem_cons.1 hx with rfl | hx
        · exact h2
        · exact h3 x hx
    · have hlt' : JSNum.lt hi n = false := by simpa using hlt
      simp only [hlt', Bool.false_eq_true, if_false]
      obtain ⟨h1, h2, h3⟩ := ih hi hhi hns'
      refine ⟨?_, h2, ?_⟩
      · rcases h1 with h1 | h1
        · exact Or.inl h1
        · exact Or.inr (List.mem_cons_of_mem _ h1)
      · intro x hx
        rcases List.mem_cons.1 hx with rfl | hx
        · exact jsnum_le_trans _ _ _ (jsnum_le_of_not_lt _ _ hhi hn hlt') h2
        · exact h3 x hx

/-- The `Math.min` fold returns its start value or an argument, and is below both. -/
theorem foldl_min_spec (ns : List JSNum) (lo : JSNum) (hlo : lo ≠ .nan)
    (hns : ∀ n ∈ ns, n ≠ .nan) :
    (ns.foldl (fun lowest n => if JSNum.lt n lowest then n else lowest) lo = lo ∨
      ns.foldl (fun lowest n => if JSNum.lt n lowest then n else lowest) lo ∈ ns) ∧
    JSNum.le (ns.foldl (fun lowest n => if JSNum.lt n lowest then n else lowest) lo) lo
      = true ∧
    ∀ x ∈ ns,
      JSNum.le (ns.foldl (fun lowest n => if JSNum.lt n lowest then n else lowest) lo) x
        = true := by
  induction ns generalizing lo with
  | nil => exact ⟨Or.inl rfl, jsnum_le_refl lo hlo, fun x hx => by cases hx⟩
  | cons n ns ih =>
    have hn : n ≠ .nan := hns n (List.mem_cons_self _ _)
    have hns' : ∀ m ∈ ns, m ≠ .nan := fun m hm => hns m (List.mem_cons_of_mem _ hm)
    simp only [List.foldl_cons]
    by_cases hlt : JSNum.lt n lo = true
    · simp only [hlt, if_true]
      obtain ⟨h1, h2, h3⟩ := ih n hn hns'
      refine ⟨Or.inr ?_, jsnum_le_trans _ _ _ h2 (jsnum_le_of_lt _ _ hlt), ?_⟩
      · rcases h1 with h1 | h1
        · rw [h1]; exact List.mem_cons_self _ _
        · exact List.mem_cons_of_mem _ h1
      · intro x hx
        rcases List.mem_cons.1 hx with rfl | hx
        · exact h2
        · exact h3 x hx
    · have hlt' : JSNum.lt n lo = false := by simpa using hlt
      simp only [hlt', Bool.false_eq_true, if_false]
      obtain ⟨h1, h2, h3⟩ := ih lo hlo hns'
      refine ⟨?_, h2, ?_⟩
      · rcases h1 with h1 | h1
        · exact Or.inl h1
        · exact Or.inr (List.mem_cons_of_mem _ h1)
      · intro x hx
        rcases List.mem_cons.1 hx with rfl | hx
        · exact jsnum_le_trans _ _ _ h2 (jsnum_le_of_not_lt _ _ hn hlo hlt')
        · exact h3 x hx

theorem any_isNaN_false (ns : List JSNum) (hns : ∀ n ∈ ns, n ≠ .nan) :
    ns.any JSNum.isNaN = false := by
  rw [Bool.eq_false_iff]
  intro h
  obtain ⟨n, hn, hnan⟩ := List.any_eq_true.1 h
  cases n <;> simp [JSNum.isNaN] at hnan
  exact hns _ hn rfl

theorem mathMax_spec (ns : List JSNum) (hne : ns ≠ []) (hns : ∀ n ∈ ns, n ≠ .nan) :
    mathMax ns ∈ ns ∧ ∀ x ∈ ns, JSNum.le x (mathMax ns) = true := by
  obtain ⟨h1, -, h3⟩ := foldl_max_spec ns .negInf (by simp) hns
  simp only [mathMax, any_isNaN_false ns hns, Bool.false_eq_true, if_false]
  refine ⟨?_, h3⟩
  rcases h1 with h1 | h1
  · obtain ⟨x, hx⟩ := List.exists_mem_of_ne_nil ns hne
    have := h3 x hx
    rw [h1] at this ⊢
    rw [← jsnum_le_negInf x this]; exact hx
  · exact h1

theorem mathMin_spec (ns : List JSNum) (hne : ns ≠ []) (hns : ∀ n ∈ ns, n ≠ .nan) :
    mathMin ns ∈ ns ∧ ∀ x ∈ ns, JSNum.le (mathMin ns) x = true := by
  obtain ⟨h1, -, h3⟩ := foldl_min_spec ns .posInf (by simp) hns
  simp only [mathMin, any_isNaN_false ns hns, Bool.false_eq_true, if_false]
  refine ⟨?_, h3⟩
  rcases h1 with h1 | h1
  · obtain ⟨x, hx⟩ := List.exists_mem_of_ne_nil ns hne
    have := h3 x hx
    rw [h1] at this ⊢
    rw [← jsnum_posInf_le x this]; exact hx
  · exact h1

theorem filterMap_numberOf_map (ns : List JSNum) :
    (ns.map JSVal.num).filterMap numberOf = ns := by
  induction ns with
  | nil => rfl
  | cons n ns ih => simp [List.filterMap_cons, numberOf, ih]

theorem max_of_numbers (maxArgs : Nat) (ns : List JSNum) (hne : ns ≠ [])
    (hlen : ns.length ≤ maxArgs) :
    MathUtils.max maxArgs (.arr (ns.map JSVal.num)) = .ok (.num (mathMax ns)) := by
  have hall : ∀ x ∈ ns.map JSVal.num, typeOf x = .number := by
    intro x hx
    obtain ⟨n, -, rfl⟩ := List.mem_map.1 hx
    rfl
  rw [max_of_all_numbers maxArgs _ (by simpa using hne) hall, if_neg (by simpa using hlen),
    filterMap_numberOf_map]

theorem min_of_numbers (maxArgs : Nat) (ns : List JSNum) (hne : ns ≠ [])
    (hlen : ns.length ≤ maxArgs) :
    MathUtils.min maxArgs (.arr (ns.map JSVal.num)) = .ok (.num (mathMin ns)) := by
  have hall : ∀ x ∈ ns.map JSVal.num, typeOf x = .number := by
    intro x hx
    obtain ⟨n, -, rfl⟩ := List.mem_map.1 hx
    rfl
  rw [min_of_all_numbers maxArgs _ (by simpa using hne) hall, if_neg (by simpa using hlen),
    filterMap_numberOf_map]

/-- C19 as stated fails: `max([1, NaN])`, a call with two arguments, is `NaN`,
which is not `>=` the member `1`. -/
theorem max_with_nan_not_upper_bound :
    ¬ ∀ (maxArgs : Nat) (ns : List JSNum), ns ≠ [] → ns.length ≤ maxArgs → ∃ m : JSNum,
        MathUtils.max maxArgs (.arr (ns.map JSVal.num)) = .ok (.num m) ∧ m ∈ ns ∧
          ∀ x ∈ ns, JSNum.le x m = true := by
  intro h
  obtain ⟨m, hm, -, hle⟩ := h 2 [.fin 1, .nan] (by simp) (by simp)
  rw [max_of_numbers 2 _ (by simp) (by simp)] at hm
  simp only [Except.ok.injEq, JSVal.num.injEq] at hm
  have hnan : m = .nan := by rw [← hm]; rfl
  have := hle (.fin 1) (by simp)
  rw [hnan] at this
  simp [JSNum.le] at this

/-- C19, amended: for every non-empty sequence of numbers that has at most as
many elements as the engine accepts as call arguments and none of which is
`NaN`, `max` returns a member of the sequence that is `>=` every member and
`min` returns a member that is `<=` every member; when some member is `NaN`,
both return `NaN`. -/
theorem max_min_of_numbers (maxArgs : Nat) (ns : List JSNum) (hne : ns ≠ [])
    (hlen : ns.length ≤ maxArgs) :
    ((∀ n ∈ ns, n ≠ .nan) →
      (∃ m : JSNum, MathUtils.max maxArgs (.arr (ns.map JSVal.num)) = .ok (.num m) ∧ m ∈ ns ∧
        ∀ x ∈ ns, JSNum.le x m = true) ∧
      (∃ m : JSNum, MathUtils.min maxArgs (.arr (ns.map JSVal.num)) = .ok (.num m) ∧ m ∈ ns ∧
        ∀ x ∈ ns, JSNum.le m x = true)) ∧
    (JSNum.nan ∈ ns →
      MathUtils.max maxArgs (.arr (ns.map JSVal.num)) = .ok (.num .nan) ∧
      MathUtils.min maxArgs (.arr (ns.map JSVal.num)) = .ok (.num .nan)) := by
  constructor
  · intro hns
    exact ⟨⟨mathMax ns, max_of_numbers maxArgs ns hne hlen, mathMax_spec ns hne hns⟩,
      ⟨mathMin ns, min_of_numbers maxArgs ns hne hlen, mathMin_spec ns hne hns⟩⟩
  · intro hnan
    have hany : ns.any JSNum.isNaN = true := List.any_eq_true.2 ⟨.nan, hnan, rfl⟩
    rw [max_of_numbers maxArgs ns hne hlen, min_of_numbers maxArgs ns hne hlen]
    simp [mathMax, mathMin, hany]

theorem max_min_of_numbers_witness :
    (∃ m : JSNum, MathUtils.max 125000 (.arr ([JSNum.fin 3, .fin 9, .fin 4].map JSVal.num)) =
        .ok (.num m) ∧ m ∈ [JSNum.fin 3, .fin 9, .fin 4] ∧
        ∀ x ∈ [JSNum.fin 3, .fin 9, .fin 4], JSNum.le x m = true) ∧
      (∃ m : JSNum, MathUtils.min 125000 (.arr ([JSNum.fin 3, .fin 9, .fin 4].map JSVal.num)) =
        .ok (.num m) ∧ m ∈ [JSNum.fin 3, .fin 9, .fin 4] ∧
        ∀ x ∈ [JSNum.fin 3, .fin 9, .fin 4], JSNum.le m x = true) :=
  (max_min_of_numbers 125000 [.fin 3, .fin 9, .fin 4] (by simp) (by simp)).1
    (by intro n hn; simp at hn; rcases hn with rfl | rfl | rfl <;> simp)

/-! ## Properties of the page controller -/

theorem promptBlank_iff (answer : Option String) :
    promptBlank answer = true ↔ answer = none ∨ ∃ s, answer = some s ∧ jsTrim s = "" := by
  cases answer with
  | none => simp [promptBlank]
  | some s =>
    simp only [promptBlank, Bool.or_eq_true, decide_eq_true_eq]
    constructor
    · rintro (h | h)
      · have h0 : s.length = 0 := by simpa [toBoolean] using h
        exact Or.inr ⟨s, rfl, jsTrim_empty_of_length s h0⟩
      · exact Or.inr ⟨s, rfl, h⟩
    · rintro (h | ⟨t, ht, htrim⟩)
      · cases h
      · cases ht; exact Or.inr htrim

/-- C17: when the prompted name is absent (`null`) or blank after trimming, or
the name is fine but the prompted role is absent or blank, `addProfile` does
not throw, raises exactly one notification, of type `error`, and leaves the
profiles container, `profileCounter` and the rest of the page state as they
were. -/
theorem addProfile_rejects_blank (now : Int) (nameAnswer roleAnswer : Option String)
    (st : AppState)
    (h : (nameAnswer = none ∨ ∃ s, nameAnswer = some s ∧ jsTrim s = "") ∨
      (¬ (nameAnswer = none ∨ ∃ s, nameAnswer = some s ∧ jsTrim s = "") ∧
        (roleAnswer = none ∨ ∃ s, roleAnswer = some s ∧ jsTrim s = ""))) :
    ∃ st' message, addProfile now nameAnswer roleAnswer st = .ok st' ∧
      (message = "❌ Name cannot be empty!" ∨ message = "❌ Role cannot be empty!") ∧
      st'.notifications = st.notifications ++ [{ message := message, type := "error" }] ∧
      st'.profiles = st.profiles ∧ st'.profileCounter = st.profileCounter ∧
      st'.cards = st.cards ∧ st'.cardCounter = st.cardCounter := by
  rcases h with h | ⟨hn, hr⟩
  · have hb := (promptBlank_iff nameAnswer).2 h
    refine ⟨showNotification "❌ Name cannot be empty!" "error" st, "❌ Name cannot be empty!",
      ?_, Or.inl rfl, rfl, rfl, rfl, rfl, rfl⟩
    simp only [addProfile, hb, if_true]
  · have hb : promptBlank nameAnswer = false := by
      rw [Bool.eq_false_iff]; exact fun hc => hn ((promptBlank_iff nameAnswer).1 hc)
    have hb2 := (promptBlank_iff roleAnswer).2 hr
    refine ⟨showNotification "❌ Role cannot be empty!" "error" st, "❌ Role cannot be empty!",
      ?_, Or.inr rfl, rfl, rfl, rfl, rfl, rfl⟩
    simp only [addProfile, hb, hb2, if_true, Bool.false_eq_true, if_false]

theorem addProfile_rejects_blank_witness :
    ∃ st' message,
      addProfile 0 (some "Ada") (some "  ") ⟨2, 1, [], [], []⟩ = .ok st' ∧
      (message = "❌ Name cannot be empty!" ∨ message = "❌ Role cannot be empty!") ∧
      st'.notifications = [] ++ [{ message := message, type := "error" }] ∧
      st'.profiles = [] ∧ st'.profileCounter = 1 ∧ st'.cards = [] ∧ st'.cardCounter = 2 :=
  addProfile_rejects_blank 0 (some "Ada") (some "  ") ⟨2, 1, [], [], []⟩
    (Or.inr ⟨by decide, Or.inr ⟨"  ", rfl, by decide⟩⟩)

theorem step_cardCounter (st : AppState) (op : Op) (h : ∀ time, op ≠ .createDynamicCard time) :
    (step st op).cardCounter = st.cardCounter := by
  cases op with
  | createDynamicCard time => exact absurd rfl (h time)
  | deleteCard i => rfl
  | deleteCardTimeout i => rfl
  | removeProfileTimeout i name => rfl
  | addProfile now nameAnswer roleAnswer =>
    simp only [step]
    cases hadd : addProfile now nameAnswer roleAnswer st with
    | error e => rfl
    | ok st1 =>
      simp only [addProfile] at hadd
      split at hadd
      · cases hadd; rfl
      · split at hadd
        · cases hadd; rfl
        · split at hadd
          · cases hadd
          · cases hadd; rfl

theorem step_cardCounter_le (st : AppState) (op : Op) :
    st.cardCounter ≤ (step st op).cardCounter := by
  by_cases h : ∀ time, op ≠ .createDynamicCard time
  · rw [step_cardCounter st op h]
  · push_neg at h
    obtain ⟨time, rfl⟩ := h
    exact Nat.le_succ _

theorem run_cardCounter_le (ops : List Op) (st : AppState) :
    st.cardCounter ≤ (run st ops).cardCounter := by
  induction ops generalizing st with
  | nil => exact le_refl _
  | cons op ops ih =>
    exact le_trans (step_cardCounter_le st op) (ih (step st op))

/-- C18: `createDynamicCard` increases `cardCounter` by exactly 1 and appends a
card titled `Dynamic Card #k`, `k` being the new counter value; no other
operation changes `cardCounter`; so over any sequence of operations the
counter never decreases, and a card created later receives a strictly larger
number than one created earlier. -/
theorem cardCounter_monotonic :
    (∀ (time : String) (st : AppState),
      (createDynamicCard time st).cardCounter = st.cardCounter + 1 ∧
      (createDynamicCard time st).cards = st.cards ++
        [{ title := "Dynamic Card #" ++ toString (createDynamicCard time st).cardCounter,
           created := time, fadeOut := false }]) ∧
    (∀ (st : AppState) (op : Op), (∀ time, op ≠ .createDynamicCard time) →
      (step st op).cardCounter = st.cardCounter) ∧
    (∀ (st : AppState) (ops : List Op), st.cardCounter ≤ (run st ops).cardCounter) ∧
    (∀ (st : AppState) (time1 time2 : String) (ops : List Op),
      (createDynamicCard time1 st).cardCounter <
        (createDynamicCard time2 (run (createDynamicCard time1 st) ops)).cardCounter) := by
  refine ⟨fun time st => ⟨rfl, rfl⟩, step_cardCounter, fun st ops => run_cardCounter_le ops st, ?_⟩
  intro st time1 time2 ops
  have h := run_cardCounter_le ops (createDynamicCard time1 st)
  have h2 : (createDynamicCard time2 (run (createDynamicCard time1 st) ops)).cardCounter =
      (run (createDynamicCard time1 st) ops).cardCounter + 1 := rfl
  omega

theorem cardCounter_monotonic_witness :
    (step ⟨4, 0, [⟨"Dynamic Card #4", "10:00", false⟩], [], []⟩ (.deleteCard 0)).cardCounter = 4 :=
  cardCounter_monotonic.2.1 ⟨4, 0, [⟨"Dynamic Card #4", "10:00", false⟩], [], []⟩ (.deleteCard 0)
    (fun _ h => by cases h)

/-! ## Idempotence of validateProfileData -/

theorem dropWhile_eq_self_of_head {α : Type} (p : α → Bool) (l : List α)
    (h : ∀ c, l.head? = some c → p c = false) : l.dropWhile p = l := by
  cases l with
  | nil => rfl
  | cons a l => rw [List.dropWhile_cons_of_neg]; simp [h a rfl]

theorem jsTrim_idem (s : String) : jsTrim (jsTrim s) = jsTrim s := by
  have hhead := jsTrim_head_not_space s
  have h1 : (jsTrim s).data.dropWhile isJSWhiteSpace = (jsTrim s).data :=
    dropWhile_eq_self_of_head _ _ hhead
  show (⟨(((jsTrim s).data.dropWhile isJSWhiteSpace).reverse.dropWhile isJSWhiteSpace).reverse⟩
    : String) = jsTrim s
  rw [h1]
  simp only [jsTrim, List.reverse_reverse, List.dropWhile_idempotent]

theorem filterSkills_valid (items : List JSVal) : ∀ s ∈ filterSkills items, jsTrim s ≠ "" := by
  intro s hs
  simp only [filterSkills, List.mem_filterMap] at hs
  obtain ⟨x, -, hx⟩ := hs
  cases x <;> simp at hx
  case str t =>
    obtain ⟨hlen, rfl⟩ := hx
    intro h0
    rw [h0] at hlen
    exact Nat.lt_irrefl 0 hlen

theorem normalizeSkills_idem (x : JSVal) :
    normalizeSkills (.arr ((normalizeSkills x).map JSVal.str)) = normalizeSkills x := by
  cases x <;> try rfl
  case arr items =>
    simp only [normalizeSkills]
    exact filterSkills_of_valid _ (filterSkills_valid items)

theorem jsOr_idem (a b c : JSVal) (h : toBoolean (jsOr a b) = true) :
    jsOr (jsOr a b) c = jsOr a b := by
  show (if toBoolean (jsOr a b) = true then jsOr a b else c) = jsOr a b
  rw [if_pos h]

theorem jsOr_null_idem (a : JSVal) : jsOr (jsOr a .null) .null = jsOr a .null := by
  by_cases h : toBoolean a = true
  · have e : jsOr a .null = a := if_pos h
    rw [e]; exact e
  · have e : jsOr a .null = .null := if_neg h
    rw [e]; rfl

theorem trimmedOrNull_idem (x : JSVal) (h : ∀ s, x = .str s → s ≠ "" → jsTrim s ≠ "") :
    trimmedOrNull (trimmedOrNull x) = trimmedOrNull x := by
  cases x <;> try rfl
  case bool b => cases b <;> rfl
  case num n =>
    have e : trimmedOrNull (.num n) = .null := by simp [trimmedOrNull, typeOf]
    rw [e]; rfl
  case bigint n =>
    have e : trimmedOrNull (.bigint n) = .null := by simp [trimmedOrNull, typeOf]
    rw [e]; rfl
  case str s =>
    by_cases hs : s.length = 0
    · have e : trimmedOrNull (.str s) = .null := by simp [trimmedOrNull, toBoolean, hs]
      rw [e]; rfl
    · have hs' : s ≠ "" := fun h0 => hs ((string_eq_empty_iff s).1 h0)
      have ht : jsTrim s ≠ "" := h s rfl hs'
      have ht' : ¬ (jsTrim s).length = 0 := fun h0 => ht ((string_eq_empty_iff _).2 h0)
      have e : trimmedOrNull (.str s) = .str (jsTrim s) := by
        simp [trimmedOrNull, toBoolean, typeOf, hs, trimOf]
      rw [e]
      simp [trimmedOrNull, toBoolean, typeOf, ht', trimOf, jsTrim_idem]

/-- C20 as stated fails: the input `{name: "A", role: "B", email: " "}` is
accepted with `email` equal to the empty string, and validating that record
again returns `email` equal to `null`. -/
theorem validateProfileData_blank_email_not_idempotent :
    ¬ ∀ (now : Int) (v : JSVal) (p : Profile),
        validateProfileData now v = .ok p → validateProfileData now p.toJS = .ok p := by
  intro h
  have h1 := h 5 (.obj [("name", .str "A"), ("role", .str "B"), ("email", .str " ")])
    { name := "A", role := "B", id := .num (.fin ((5 : Int) : ℚ)), avatar := .null,
      email := .str "", department := .null, skills := [] } rfl
  have h2 : validateProfileData 5 (Profile.toJS
      { name := "A", role := "B", id := .num (.fin ((5 : Int) : ℚ)), avatar := .null,
        email := .str "", department := .null, skills := [] }) =
      .ok
        { name := "A", role := "B", id := .num (.fin ((5 : Int) : ℚ)), avatar := .null,
          email := .null, department := .null, skills := [] } := rfl
  rw [h2] at h1
  simp at h1

/-- C20, amended: for every input `validateProfileData` accepts whose `email`
and `department` are not white-space-only strings, and whose returned `id` is
truthy (the input `id` is truthy, or `Date.now()` is not `0`), validating the
returned record again, at any later time, succeeds and returns the same
record. -/
theorem validateProfileData_idempotent (now later : Int) (v : JSVal) (p : Profile)
    (h : validateProfileData now v = .ok p)
    (hid : toBoolean (getProp v "id") = true ∨ now ≠ 0)
    (hemail : ∀ s, getProp v "email" = .str s → s ≠ "" → jsTrim s ≠ "")
    (hdept : ∀ s, getProp v "department" = .str s → s ≠ "" → jsTrim s ≠ "") :
    validateProfileData later p.toJS = .ok p := by
  obtain ⟨fields, s, r, rfl, hs, hs', hr, hr', rfl⟩ := (validate_ok_iff now v p).1 h
  rw [validate_ok_iff]
  refine ⟨_, jsTrim s, jsTrim r, rfl, rfl, ?_, rfl, ?_, ?_⟩
  · rw [jsTrim_idem]; exact hs'
  · rw [jsTrim_idem]; exact hr'
  · have hidt : toBoolean (jsOr (getProp (.obj fields) "id") (.num (.fin now))) = true := by
      by_cases ht : toBoolean (getProp (.obj fields) "id") = true
      · have e : jsOr (getProp (.obj fields) "id") (.num (.fin now)) =
            getProp (.obj fields) "id" := if_pos ht
        rw [e]; exact ht
      · have e : jsOr (getProp (.obj fields) "id") (.num (.fin now)) = .num (.fin now) :=
          if_neg ht
        have hnow : now ≠ 0 := hid.resolve_left ht
        rw [e]
        simp [toBoolean, JSNum.truthy, hnow]
    have e1 : getProp (Profile.toJS
        { name := jsTrim s, role := jsTrim r,
          id := jsOr (getProp (.obj fields) "id") (.num (.fin now)),
          avatar := jsOr (getProp (.obj fields) "avatar") .null,
          email := trimmedOrNull (getProp (.obj fields) "email"),
          department := trimmedOrNull (getProp (.obj fields) "department"),
          skills := normalizeSkills (getProp (.obj fields) "skills") }) "id" =
        jsOr (getProp (.obj fields) "id") (.num (.fin now)) := rfl
    have e2 : getProp (Profile.toJS
        { name := jsTrim s, role := jsTrim r,
          id := jsOr (getProp (.obj fields) "id") (.num (.fin now)),
          avatar := jsOr (getProp (.obj fields) "avatar") .null,
          email := trimmedOrNull (getProp (.obj fields) "email"),
          department := trimmedOrNull (getProp (.obj fields) "department"),
          skills := normalizeSkills (getProp (.obj fields) "skills") }) "avatar" =
        jsOr (getProp (.obj fields) "avatar") .null := rfl
    have e3 : getProp (Profile.toJS
        { name := jsTrim s, role := jsTrim r,
          id := jsOr (getProp (.obj fields) "id") (.num (.fin now)),
          avatar := jsOr (getProp (.obj fields) "avatar") .null,
          email := trimmedOrNull (getProp (.obj fields) "email"),
          department := trimmedOrNull (getProp (.obj fields) "department"),
          skills := normalizeSkills (getProp (.obj fields) "skills") }) "email" =
        trimmedOrNull (getProp (.obj fields) "email") := rfl
    have e4 : getProp (Profile.toJS
        { name := jsTrim s, role := jsTrim r,
          id := jsOr (getProp (.obj fields) "id") (.num (.fin now)),
          avatar := jsOr (getProp (.obj fields) "avatar") .null,
          email := trimmedOrNull (getProp (.obj fields) "email"),
          department := trimmedOrNull (getProp (.obj fields) "department"),
          skills := normalizeSkills (getProp (.obj fields) "skills") }) "department" =
        trimmedOrNull (getProp (.obj fields) "department") := rfl
    have e5 : getProp (Profile.toJS
        { name := jsTrim s, role := jsTrim r,
          id := jsOr (getProp (.obj fields) "id") (.num (.fin now)),
          avatar := jsOr (getProp (.obj fields) "avatar") .null,
          email := trimmedOrNull (getProp (.obj fields) "email"),
          department := trimmedOrNull (getProp (.obj fields) "department"),
          skills := normalizeSkills (getProp (.obj fields) "skills") }) "skills" =
        .arr ((normalizeSkills (getProp (.obj fields) "skills")).map JSVal.str) := rfl
    rw [e1, e2, e3, e4, e5, jsTrim_idem, jsTrim_idem, jsOr_idem _ _ _ hidt, jsOr_null_idem,
      trimmedOrNull_idem _ hemail, trimmedOrNull_idem _ hdept, normalizeSkills_idem]

theorem validateProfileData_idempotent_witness :
    validateProfileData 9 (Profile.toJS
      { name := "Ada", role := "Dev", id := .num (.fin ((5 : Int) : ℚ)), avatar := .null,
        email := .str "ada@x.org", department := .null, skills := ["js"] }) =
      .ok
        { name := "Ada", role := "Dev", id := .num (.fin ((5 : Int) : ℚ)), avatar := .null,
          email := .str "ada@x.org", department := .null, skills := ["js"] } :=
  validateProfileData_idempotent 5 9
    (.obj [("name", .str " Ada"), ("role", .str "Dev "), ("email", .str " ada@x.org "),
      ("skills", .arr [.str "js", .str " ", .null])])
    { name := "Ada", role := "Dev", id := .num (.fin ((5 : Int) : ℚ)), avatar := .null,
      email := .str "ada@x.org", department := .null, skills := ["js"] }
    rfl (Or.inr (by decide))
    (by
      intro s hs _
      have hs' : s = " ada@x.org " := by
        simp [getProp, List.lookup] at hs
        exact hs.symm
      subst hs'
      decide)
    (by
      intro s hs _
      simp [getProp, List.lookup] at hs)

/-! ## Properties of the colour-cycling button -/

theorem colorAt_of_lt (i : Nat) (h : i < 4) :
    ∃ color, colors.get? i = some color ∧ colorAt i = .str color := by
  interval_cases i <;> exact ⟨_, rfl, rfl⟩

theorem colorBtnClick_index (st : ThemeState) :
    (colorBtnClick st).colorIndex = (st.colorIndex + 1) % 4 := by
  simp only [colorBtnClick]
  split <;> rfl

theorem clickTimes_index (k : Nat) (st : ThemeState) :
    (clickTimes k st).colorIndex = (st.colorIndex + k) % 4 ∨
      (k = 0 ∧ (clickTimes k st).colorIndex = st.colorIndex) := by
  induction k with
  | zero => exact Or.inr ⟨rfl, rfl⟩
  | succ k ih =>
    left
    show (colorBtnClick (clickTimes k st)).colorIndex = _
    rw [colorBtnClick_index]
    rcases ih with ih | ⟨rfl, ih⟩
    · rw [ih]; omega
    · rw [ih]

theorem clickTimes_index_start (k : Nat) (st : ThemeState) (h0 : st.colorIndex = 0) :
    (clickTimes k st).colorIndex = k % 4 := by
  rcases clickTimes_index k st with h | ⟨rfl, h⟩
  · rw [h, h0, Nat.zero_add]
  · rw [h, h0]

/-- C21: starting from `colorIndex = 0`, after any number of clicks
`colorIndex` is below 4, so `colors[colorIndex]` is defined; the `k`-th click
(`k >= 1`) sets the background to `colors[(k-1) mod 4]` and the heading to
`Theme Color Changed to` followed by that colour; four further clicks bring
`colorIndex` back to where it was, so after every 4 clicks from the start the
next colour is the first one; and from any state a click leaves `colorIndex`
below 4. -/
theorem colorIndex_cycles (st : ThemeState) (h0 : st.colorIndex = 0) :
    (∀ k, (clickTimes k st).colorIndex < 4 ∧
      ∃ color, colors.get? (clickTimes k st).colorIndex = some color) ∧
    (∀ k, 1 ≤ k → ∃ color, colors.get? ((k - 1) % 4) = some color ∧
      (clickTimes k st).backgroundColor = color ∧
      (clickTimes k st).headingText = "Theme Color Changed to " ++ color) ∧
    (∀ k, (clickTimes (k + 4) st).colorIndex = (clickTimes k st).colorIndex) ∧
    (∀ n, (clickTimes (4 * n) st).colorIndex = 0 ∧
      (clickTimes (4 * n + 1) st).backgroundColor = "#ffcccc") ∧
    (∀ s : ThemeState, (colorBtnClick s).colorIndex < 4) := by
  have hstep : ∀ k, ∃ color, colors.get? (k % 4) = some color ∧
      (clickTimes (k + 1) st).backgroundColor = color ∧
      (clickTimes (k + 1) st).headingText = "Theme Color Changed to " ++ color := by
    intro k
    obtain ⟨color, hget, hat⟩ := colorAt_of_lt (k % 4) (Nat.mod_lt _ (by decide))
    refine ⟨color, hget, ?_⟩
    show (colorBtnClick (clickTimes k st)).backgroundColor = color ∧
      (colorBtnClick (clickTimes k st)).headingText = "Theme Color Changed to " ++ color
    simp [colorBtnClick, clickTimes_index_start k st h0, hat]
  refine ⟨?_, ?_, ?_, ?_, ?_⟩
  rotate_left 4
  · intro s
    rw [colorBtnClick_index]; exact Nat.mod_lt _ (by decide)
  · intro k
    have hlt : (clickTimes k st).colorIndex < 4 := by
      rw [clickTimes_index_start k st h0]; exact Nat.mod_lt _ (by decide)
    obtain ⟨color, hget, -⟩ := colorAt_of_lt _ hlt
    exact ⟨hlt, color, hget⟩
  · intro k hk
    obtain ⟨j, rfl⟩ : ∃ j, k = j + 1 := ⟨k - 1, by omega⟩
    simpa using hstep j
  · intro k
    rw [clickTimes_index_start _ st h0, clickTimes_index_start _ st h0]
    omega
  · intro n
    constructor
    · rw [clickTimes_index_start _ st h0]; omega
    · obtain ⟨color, hget, hbg, -⟩ := hstep (4 * n)
      have h4 : 4 * n % 4 = 0 := by omega
      rw [h4] at hget
      rw [hbg]
      simpa [colors] using hget.symm

theorem colorIndex_cycles_witness :
    ∃ color, colors.get? ((6 - 1) % 4) = some color ∧
      (clickTimes 6 ⟨0, "", "Student Registration"⟩).backgroundColor = color ∧
      (clickTimes 6 ⟨0, "", "Student Registration"⟩).headingText =
        "Theme Color Changed to " ++ color :=
  (colorIndex_cycles ⟨0, "", "Student Registration"⟩ rfl).2.1 6 (by decide)

end StudentRegistration
